import Mathlib

/-!
Verification of `packages/sol-cov/src/trace_collection_subprovider.ts`
(the `TraceCollectionSubprovider` class of the 0x monorepo).

The development contains two shallow embeddings:

1. A sequential embedding of the capture procedures
   (`handleRequest`, `_onTransactionSentAsync`, `_onCallOrGasEstimateExecutedAsync`,
   `_recordTxTraceAsync`, `_recordCallOrGasEstimateTraceAsync`), written as
   state-passing functions over an abstract `World` (chain state, snapshot stack,
   the trace registry, the lock bit and a completion-callback counter), with the
   node's responses supplied by a `NodeBehavior` oracle.  An awaited RPC call that
   fails is modelled as an exception (`AsyncFailure.rejected`); a provider-engine
   unwind that never resumes because a completion hook itself raised is modelled
   as `AsyncFailure.stalled` (a `try/catch` around an awaited promise catches
   rejections, never stalls).

2. A small interleaving model of the concurrency gate (the `Lock` of
   semaphore-async-await together with the acquire/release placement of the two
   capture paths), used for the mutual-exclusion and FIFO statements.
-/

/-- Entries of a `structLog` execution trace are kept abstract. -/
abbrev StructLogEntry := Nat

namespace constants

/-- `constants.NEW_CONTRACT` from `sol-cov`: the sentinel address used for the
contract being deployed by the traced transaction itself. -/
def NEW_CONTRACT : String := "NEW_CONTRACT"

end constants

/-- The local constant `NULL_ADDRESS = '0x0'` of `_onTransactionSentAsync`. -/
def NULL_ADDRESS : String := "0x0"

/-- `BLOCK_GAS_LIMIT = 6000000` (line 16 of the source). -/
def BLOCK_GAS_LIMIT : Nat := 6000000

/-- The two variants of `TraceInfo` (`TraceInfoExistingContract` /
`TraceInfoNewContract`): common fields `subtrace`, `txHash`, `address`; the
existing-contract variant carries the deployed `runtimeBytecode` fetched from
the node, the new-contract variant carries the creation `bytecode` taken from
the transaction payload (`data as string`, hence possibly absent). -/
inductive TraceInfo where
  | existingContract (subtrace : List StructLogEntry) (txHash : String)
      (address : String) (runtimeBytecode : String)
  | newContract (subtrace : List StructLogEntry) (txHash : String)
      (address : String) (bytecode : Option String)
deriving DecidableEq, Repr

/-- `TraceCollectionSubproviderConfig`: the three capture toggles. -/
structure TraceCollectionSubproviderConfig where
  shouldCollectTransactionTraces : Bool
  shouldCollectCallTraces : Bool
  shouldCollectGasEstimateTraces : Bool
deriving DecidableEq, Repr

/-- `MaybeFakeTxData`: a transaction payload, with the internal
`isFakeTransaction` marker (absent on the wire, falsy when missing).
`from` is a Lean keyword, so the field is called `fromAddress`. -/
structure MaybeFakeTxData where
  fromAddress : String
  to? : Option String
  data? : Option String
  value? : Option Nat
  gas? : Option Nat
  gasPrice? : Option Nat
  isFakeTransaction : Bool
deriving DecidableEq, Repr

/-- `Partial<CallData>`: the payload of an `eth_call` / `eth_estimateGas`
request; every field may be absent. -/
structure CallData where
  fromAddress? : Option String
  to? : Option String
  data? : Option String
  value? : Option Nat
  gas? : Option Nat
  gasPrice? : Option Nat
deriving DecidableEq, Repr

/-- The synthetic transaction built by `_recordCallOrGasEstimateTraceAsync`
(lines 217-222):
`{ gas: BLOCK_GAS_LIMIT, isFakeTransaction: true, ...callData, from: callData.from || this._defaultFromAddress }`.
Object-spread semantics: a key present in `callData` overrides the `gas` default
written before the spread, while `from` is written after the spread and wins;
`callData.from || default` treats the empty string as falsy. -/
def mkFakeTxData (defaultFromAddress : String) (callData : CallData) : MaybeFakeTxData :=
  { gas? := match callData.gas? with
      | some g => some g
      | none => some BLOCK_GAS_LIMIT
    gasPrice? := callData.gasPrice?
    to? := callData.to?
    data? := callData.data?
    value? := callData.value?
    isFakeTransaction := true
    fromAddress := match callData.fromAddress? with
      | some f => if f = "" then defaultFromAddress else f
      | none => defaultFromAddress }

/-- The recipient resolution of `_onTransactionSentAsync` (lines 135-138):
`_.isUndefined(txData.to) || txData.to === NULL_ADDRESS ? constants.NEW_CONTRACT : txData.to`. -/
def resolveToAddress (txData : MaybeFakeTxData) : String :=
  match txData.to? with
  | none => constants.NEW_CONTRACT
  | some t => if t = NULL_ADDRESS then constants.NEW_CONTRACT else t

/-- A JSON-RPC request as seen by `handleRequest`: the method name and the
`params` array (only `params[0]` is ever read). -/
structure JSONRPCRequestPayload (α : Type) where
  method : String
  params : List α
deriving DecidableEq, Repr

/-- The observable decision taken by `handleRequest` for one request: forward
unmodified (`next()`), or forward wrapped with one of the two capture
completion hooks bound to `payload.params[0]` (`next(this._on...bind(this, p))`). -/
inductive HandleRequestOutcome (α : Type) where
  | forwardUnmodified
  | forwardWrappedTransactionCapture (txData? : Option α)
  | forwardWrappedCallOrGasEstimateCapture (callData? : Option α)
deriving DecidableEq, Repr

/-- `handleRequest` (lines 76-114), with the instance state `_isEnabled` and
`_config` passed explicitly.  The request is classified by `payload.method`;
`payload.params[0]` (which, as in JavaScript, may be absent) is bound into the
chosen completion hook. -/
def handleRequest {α : Type} (isEnabled : Bool) (config : TraceCollectionSubproviderConfig)
    (payload : JSONRPCRequestPayload α) : HandleRequestOutcome α :=
  if isEnabled then
    if payload.method = "eth_sendTransaction" then
      if !config.shouldCollectTransactionTraces then
        HandleRequestOutcome.forwardUnmodified
      else
        HandleRequestOutcome.forwardWrappedTransactionCapture payload.params.head?
    else if payload.method = "eth_call" then
      if !config.shouldCollectCallTraces then
        HandleRequestOutcome.forwardUnmodified
      else
        HandleRequestOutcome.forwardWrappedCallOrGasEstimateCapture payload.params.head?
    else if payload.method = "eth_estimateGas" then
      if !config.shouldCollectGasEstimateTraces then
        HandleRequestOutcome.forwardUnmodified
      else
        HandleRequestOutcome.forwardWrappedCallOrGasEstimateCapture payload.params.head?
    else
      HandleRequestOutcome.forwardUnmodified
  else
    HandleRequestOutcome.forwardUnmodified

/-- The classification rule as the specification states it, written
independently of `handleRequest`: while disabled every request is forwarded
unmodified; a method other than the three intercepted ones is forwarded
unmodified; otherwise the matching toggle decides between forwarding unmodified
and wrapping with the corresponding capture hook bound to the first parameter. -/
def specClassification {α : Type} (isEnabled : Bool) (config : TraceCollectionSubproviderConfig)
    (payload : JSONRPCRequestPayload α) : HandleRequestOutcome α :=
  if isEnabled = false then
    HandleRequestOutcome.forwardUnmodified
  else if payload.method ≠ "eth_sendTransaction" ∧ payload.method ≠ "eth_call" ∧
      payload.method ≠ "eth_estimateGas" then
    HandleRequestOutcome.forwardUnmodified
  else if payload.method = "eth_sendTransaction" then
    if config.shouldCollectTransactionTraces then
      HandleRequestOutcome.forwardWrappedTransactionCapture payload.params.head?
    else
      HandleRequestOutcome.forwardUnmodified
  else if payload.method = "eth_call" then
    if config.shouldCollectCallTraces then
      HandleRequestOutcome.forwardWrappedCallOrGasEstimateCapture payload.params.head?
    else
      HandleRequestOutcome.forwardUnmodified
  else
    if config.shouldCollectGasEstimateTraces then
      HandleRequestOutcome.forwardWrappedCallOrGasEstimateCapture payload.params.head?
    else
      HandleRequestOutcome.forwardUnmodified

/-- The mutable instance state of a `TraceCollectionSubprovider`
(lines 34-48): default sender, the trace registry, the enabled flag and the
construction-time configuration.  The lock's runtime state lives in `World`. -/
structure TraceCollectionSubprovider where
  _defaultFromAddress : String
  _traceInfos : List TraceInfo
  _isEnabled : Bool
  _config : TraceCollectionSubproviderConfig
deriving DecidableEq, Repr

/-- The constructor (lines 44-48): stores the default sender and the config;
`_traceInfos` starts empty and `_isEnabled` starts `true` (line 38). -/
def TraceCollectionSubprovider.new (defaultFromAddress : String)
    (config : TraceCollectionSubproviderConfig) : TraceCollectionSubprovider :=
  { _defaultFromAddress := defaultFromAddress
    _traceInfos := []
    _isEnabled := true
    _config := config }

/-- `getCollectedTraceInfos` (lines 52-54). -/
def TraceCollectionSubprovider.getCollectedTraceInfos
    (s : TraceCollectionSubprovider) : List TraceInfo :=
  s._traceInfos

/-- `start` (lines 58-60). -/
def TraceCollectionSubprovider.start (s : TraceCollectionSubprovider) :
    TraceCollectionSubprovider :=
  { s with _isEnabled := true }

/-- `stop` (lines 64-66). -/
def TraceCollectionSubprovider.stop (s : TraceCollectionSubprovider) :
    TraceCollectionSubprovider :=
  { s with _isEnabled := false }

/-- Ways an awaited asynchronous operation can fail to return normally:
`rejected` is a rejected promise (catchable by `try/catch`); `stalled` is a
pending promise that never resolves (in particular, the provider-engine unwind
stalling because a completion hook raised before calling its continuation), so
nothing downstream of the `await` ever runs. -/
inductive AsyncFailure where
  | rejected
  | stalled
deriving DecidableEq, Repr

/-- The state threaded through a capture cycle: the chain (list of mined
transactions), the stack of snapshots taken by `BlockchainLifecycle`, the trace
registry `_traceInfos`, whether the `Lock` is held, how many times the original
completion callback has been invoked, a counter of `awaitTransactionMinedAsync`
calls (so a transient RPC failure of the mine-wait can be modelled), and a
ghost record of the root addresses handed to `getTracesByContractAddress`. -/
structure World where
  chain : List MaybeFakeTxData
  snapshots : List (List MaybeFakeTxData)
  traceInfos : List TraceInfo
  lockHeld : Bool
  cbCount : Nat
  mineCalls : Nat
  extractionRoots : List String
deriving DecidableEq, Repr

/-- State-and-exception monad for the capture procedures: a step transforms the
`World` and either returns a value or fails; the `World` reached at the moment
of failure is kept (appends made before an error persist). -/
abbrev CaptureM (α : Type) := World → Except AsyncFailure α × World

instance : Monad CaptureM where
  pure a := fun w => (Except.ok a, w)
  bind m f := fun w =>
    match m w with
    | (Except.ok a, w') => f a w'
    | (Except.error e, w') => (Except.error e, w')

/-- Unfolding lemma for `bind` in `CaptureM`. -/
theorem captureBind_def {α β : Type} (m : CaptureM α) (f : α → CaptureM β) (w : World) :
    (m >>= f) w =
      match m w with
      | (Except.ok a, w') => f a w'
      | (Except.error e, w') => (Except.error e, w') := rfl

/-- Unfolding lemma for `pure` in `CaptureM`. -/
theorem capturePure_def {α : Type} (a : α) (w : World) :
    (pure a : CaptureM α) w = (Except.ok a, w) := rfl

/-- Raise a failure. -/
def throwF {α : Type} (e : AsyncFailure) : CaptureM α := fun w => (Except.error e, w)

/-- Update the world. -/
def modifyW (f : World → World) : CaptureM Unit := fun w => (Except.ok (), f w)

/-- The responses of the node (and of the pure trace extractor, which lives in
`trace.ts`, outside this file's source) during one capture flow.  Each RPC
operation is split into a success flag and the value returned on success;
`mineOk` additionally depends on how many mine-waits happened before, so that
distinct awaits of the same hash can behave differently. -/
structure NodeBehavior where
  snapshotOk : Bool
  revertOk : Bool
  sendOk : MaybeFakeTxData → Bool
  sendHash : MaybeFakeTxData → String
  mineOk : String → Nat → Bool
  traceOk : String → Bool
  traceLogs : String → List StructLogEntry
  codeOk : String → Bool
  code : String → String
  blockOk : Bool
  blockTransactions : List (String × String)
  extract : List StructLogEntry → String → List (String × List StructLogEntry)

/-- `this._lock.acquire()`: in this single-flow model an acquire of a free lock
proceeds; an acquire of a held lock never resumes. -/
def lockAcquire : CaptureM Unit := fun w =>
  if w.lockHeld then (Except.error AsyncFailure.stalled, w)
  else (Except.ok (), { w with lockHeld := true })

/-- `this._lock.release()`. -/
def lockRelease : CaptureM Unit := fun w =>
  (Except.ok (), { w with lockHeld := false })

/-- The original completion callback `cb` handed to a wrapped hook by the
provider engine; invoking it is counted. -/
def invokeCb : CaptureM Unit := fun w =>
  (Except.ok (), { w with cbCount := w.cbCount + 1 })

/-- `web3Wrapper.awaitTransactionMinedAsync(txHash)`. -/
def awaitTransactionMinedAsync (nb : NodeBehavior) (txHash : String) : CaptureM Unit := fun w =>
  if nb.mineOk txHash w.mineCalls then
    (Except.ok (), { w with mineCalls := w.mineCalls + 1 })
  else
    (Except.error AsyncFailure.rejected, { w with mineCalls := w.mineCalls + 1 })

/-- `web3Wrapper.getTransactionTraceAsync(txHash, ...)`, yielding `structLogs`. -/
def getTransactionTraceAsync (nb : NodeBehavior) (txHash : String) :
    CaptureM (List StructLogEntry) := fun w =>
  if nb.traceOk txHash then (Except.ok (nb.traceLogs txHash), w)
  else (Except.error AsyncFailure.rejected, w)

/-- `web3Wrapper.getContractCodeAsync(address)`. -/
def getContractCodeAsync (nb : NodeBehavior) (address : String) : CaptureM String := fun w =>
  if nb.codeOk address then (Except.ok (nb.code address), w)
  else (Except.error AsyncFailure.rejected, w)

/-- `web3Wrapper.getBlockWithTransactionDataAsync(BlockParamLiteral.Latest)`,
reduced to the `(input, hash)` pairs of the block's transaction list. -/
def getBlockWithTransactionDataAsync (nb : NodeBehavior) :
    CaptureM (List (String × String)) := fun w =>
  if nb.blockOk then (Except.ok nb.blockTransactions, w)
  else (Except.error AsyncFailure.rejected, w)

/-- `blockchainLifecycle.startAsync()`: take a snapshot of the chain. -/
def blockchainLifecycleStartAsync (nb : NodeBehavior) : CaptureM Unit := fun w =>
  if nb.snapshotOk then (Except.ok (), { w with snapshots := w.chain :: w.snapshots })
  else (Except.error AsyncFailure.rejected, w)

/-- `blockchainLifecycle.revertAsync()`: restore the chain to the most recent
snapshot and drop it. -/
def blockchainLifecycleRevertAsync (nb : NodeBehavior) : CaptureM Unit := fun w =>
  if nb.revertOk then
    match w.snapshots with
    | s :: rest => (Except.ok (), { w with chain := s, snapshots := rest })
    | [] => (Except.error AsyncFailure.rejected, w)
  else (Except.error AsyncFailure.rejected, w)

/-- A JavaScript `try { body } catch { _.noop(); }` around awaited promises:
a rejection is swallowed, a stall is not observable and propagates. -/
def tryCatchRejected (body : CaptureM Unit) : CaptureM Unit := fun w =>
  match body w with
  | (Except.ok a, w') => (Except.ok a, w')
  | (Except.error AsyncFailure.rejected, w') => (Except.ok (), w')
  | (Except.error AsyncFailure.stalled, w') => (Except.error AsyncFailure.stalled, w')

/-- The loop of `_recordTxTraceAsync` run when the root address is
`constants.NEW_CONTRACT` (lines 175-196): a subcall at the sentinel key yields
a `TraceInfoNewContract` carrying the payload's `data`; any other key yields a
`TraceInfoExistingContract` with the code fetched at that address. -/
def recordLoopNewContract (nb : NodeBehavior) (data? : Option String) (txHash : String) :
    List (String × List StructLogEntry) → CaptureM Unit
  | [] => pure ()
  | (subcallAddress, traceForThatSubcall) :: rest =>
      (if subcallAddress = "NEW_CONTRACT" then
        modifyW fun w =>
          { w with traceInfos := w.traceInfos ++
              [TraceInfo.newContract traceForThatSubcall txHash subcallAddress data?] }
      else
        getContractCodeAsync nb subcallAddress >>= fun runtimeBytecode =>
        modifyW fun w =>
          { w with traceInfos := w.traceInfos ++
              [TraceInfo.existingContract traceForThatSubcall txHash subcallAddress
                runtimeBytecode] }) >>= fun _ =>
      recordLoopNewContract nb data? txHash rest

/-- The loop of `_recordTxTraceAsync` run when the root address is an ordinary
address (lines 198-208): every key, the sentinel included, yields a
`TraceInfoExistingContract` with the code fetched at that key. -/
def recordLoopExisting (nb : NodeBehavior) (txHash : String) :
    List (String × List StructLogEntry) → CaptureM Unit
  | [] => pure ()
  | (subcallAddress, traceForThatSubcall) :: rest => do
      let runtimeBytecode ← getContractCodeAsync nb subcallAddress
      modifyW fun w =>
        { w with traceInfos := w.traceInfos ++
            [TraceInfo.existingContract traceForThatSubcall txHash subcallAddress
              runtimeBytecode] }
      recordLoopExisting nb txHash rest

/-- `_recordTxTraceAsync` (lines 165-210): await mining, fetch the trace, run
the extractor keyed by `address`, then append one `TraceInfo` per extracted
key, choosing the loop by whether the root `address` is the sentinel.  The
extraction root is also recorded in the ghost field `extractionRoots`. -/
def _recordTxTraceAsync (nb : NodeBehavior) (address : String) (data? : Option String)
    (txHash : String) : CaptureM Unit := do
  awaitTransactionMinedAsync nb txHash
  let structLogs ← getTransactionTraceAsync nb txHash
  let tracesByContractAddress := nb.extract structLogs address
  modifyW fun w => { w with extractionRoots := w.extractionRoots ++ [address] }
  if address = constants.NEW_CONTRACT then
    recordLoopNewContract nb data? txHash tracesByContractAddress
  else
    recordLoopExisting nb txHash tracesByContractAddress

/-- The per-transaction loop of the failure path of `_onTransactionSentAsync`
(lines 141-147): scan the latest block and record a trace for every transaction
in it, using that transaction's `input` and `hash` but the original payload's
recipient resolution. -/
def recordScanLoop (nb : NodeBehavior) (txData : MaybeFakeTxData) :
    List (String × String) → CaptureM Unit
  | [] => pure ()
  | (input, hash) :: rest => do
      _recordTxTraceAsync nb (resolveToAddress txData) (some input) hash
      recordScanLoop nb txData rest

/-- `_onTransactionSentAsync` (lines 124-155): a genuine (non-fake) transaction
first acquires the lock; on a `null` error the trace is recorded under the
resolved recipient with the payload's `data` and the reported hash
(`txHash as string`); on an error the latest block is scanned; a genuine
transaction then releases the lock; finally the original completion callback
runs.  No step is protected by any `try`/`finally`. -/
def _onTransactionSentAsync (nb : NodeBehavior) (txData : MaybeFakeTxData)
    (err : Option Unit) (txHash? : Option String) (cb : CaptureM Unit) : CaptureM Unit :=
  (if !txData.isFakeTransaction then lockAcquire else pure ()) >>= fun _ =>
  (match err with
    | none =>
        _recordTxTraceAsync nb (resolveToAddress txData) txData.data? (txHash?.getD "")
    | some _ =>
        getBlockWithTransactionDataAsync nb >>= fun transactions =>
        recordScanLoop nb txData transactions) >>= fun _ =>
  (if !txData.isFakeTransaction then lockRelease else pure ()) >>= fun _ =>
  cb

/-- The interceptor's view of the instance state used while a synthetic
transaction travels back through the provider engine. -/
structure Env where
  defaultFromAddress : String
  isEnabled : Bool
  config : TraceCollectionSubproviderConfig

/-- The engine-side completion of an `eth_sendTransaction` request issued from
inside this component: `handleRequest` classifies the request, and when it
wraps it, `_onTransactionSentAsync` runs as the completion hook (with the
engine's own continuation as `cb`).  If that hook raises, the engine unwind
never resumes, so the sender's promise stalls. -/
def nestedTransactionHook (nb : NodeBehavior) (env : Env) (tx : MaybeFakeTxData)
    (err : Option Unit) (txHash? : Option String) : CaptureM Unit := fun w =>
  match handleRequest env.isEnabled env.config
      { method := "eth_sendTransaction", params := [tx] } with
  | HandleRequestOutcome.forwardWrappedTransactionCapture (some txData) =>
      (match _onTransactionSentAsync nb txData err txHash? (pure ()) w with
        | (Except.ok _, w') => (Except.ok (), w')
        | (Except.error _, w') => (Except.error AsyncFailure.stalled, w'))
  | _ => (Except.ok (), w)

/-- `web3Wrapper.sendTransactionAsync(tx)`: the engine routes the request down
to the node (which, on success, mines the transaction onto the chain) and back
up through this component's own `handleRequest` wrapping; the promise resolves
with the hash, or rejects when the node reported an error. -/
def sendTransactionAsync (nb : NodeBehavior) (env : Env) (tx : MaybeFakeTxData) :
    CaptureM String :=
  if nb.sendOk tx then do
    modifyW fun w => { w with chain := w.chain ++ [tx] }
    nestedTransactionHook nb env tx none (some (nb.sendHash tx))
    pure (nb.sendHash tx)
  else do
    nestedTransactionHook nb env tx (some ()) none
    throwF AsyncFailure.rejected

/-- `_recordCallOrGasEstimateTraceAsync` (lines 211-232): acquire the lock,
snapshot, build the synthetic transaction, submit it and await mining inside a
`try/catch` that swallows the failure, then revert the snapshot and release the
lock.  Only the submit/mine-wait pair is inside the `try`. -/
def _recordCallOrGasEstimateTraceAsync (nb : NodeBehavior) (env : Env)
    (callData : CallData) : CaptureM Unit := do
  lockAcquire
  blockchainLifecycleStartAsync nb
  let fakeTxData := mkFakeTxData env.defaultFromAddress callData
  tryCatchRejected (do
    let txHash ← sendTransactionAsync nb env fakeTxData
    awaitTransactionMinedAsync nb txHash)
  blockchainLifecycleRevertAsync nb
  lockRelease

/-- `_onCallOrGasEstimateExecutedAsync` (lines 156-164): run the capture cycle,
then invoke the original completion callback.  The call's own error and result
are ignored. -/
def _onCallOrGasEstimateExecutedAsync (nb : NodeBehavior) (env : Env)
    (callData : CallData) (_err : Option Unit) (_callResult : String)
    (cb : CaptureM Unit) : CaptureM Unit := do
  _recordCallOrGasEstimateTraceAsync nb env callData
  cb

/-- The `TraceInfo` records that `_recordTxTraceAsync` appends, as a pure
function of the extraction output: when the root address is the
`NEW_CONTRACT` sentinel, a sentinel key yields the new-contract variant
carrying the payload's submitted data and any other key yields the
existing-contract variant carrying the code fetched at that key; for any other
root address, every key — the sentinel included — yields the existing-contract
variant. -/
def expectedTraceInfos (nb : NodeBehavior) (address : String) (data? : Option String)
    (txHash : String) (pairs : List (String × List StructLogEntry)) : List TraceInfo :=
  if address = constants.NEW_CONTRACT then
    pairs.map fun p =>
      if p.1 = "NEW_CONTRACT" then TraceInfo.newContract p.2 txHash p.1 data?
      else TraceInfo.existingContract p.2 txHash p.1 (nb.code p.1)
  else
    pairs.map fun p => TraceInfo.existingContract p.2 txHash p.1 (nb.code p.1)

/-- The two kinds of flows that interact with the concurrency gate: a genuine
`eth_sendTransaction` from the host, and a call/estimate capture cycle. -/
inductive TaskKind where
  | genuineTx
  | callCapture
deriving DecidableEq, Repr

/-- The atomic steps of the gate model.  `nodeExecuteTx` is the node processing
a genuine transaction (its state mutation); the remaining steps are the
gate-relevant operations of the two completion flows in source order. -/
inductive GateAction where
  | nodeExecuteTx
  | acquire
  | snapshot
  | executeFakeTx
  | record
  | revert
  | release
deriving DecidableEq, Repr

/-- The step sequence of each flow.  A genuine transaction is executed by the
node first — its completion hook, which is what acquires the gate, only runs
after the send has completed (lines 84 and 124-154) — then records its trace
under the gate.  A capture cycle acquires the gate, snapshots, executes the
synthetic transaction, records, reverts and releases (lines 211-232). -/
def program : TaskKind → List GateAction
  | TaskKind.genuineTx => [GateAction.nodeExecuteTx, GateAction.acquire,
      GateAction.record, GateAction.release]
  | TaskKind.callCapture => [GateAction.acquire, GateAction.snapshot,
      GateAction.executeFakeTx, GateAction.record, GateAction.revert, GateAction.release]

/-- Position of `acquire` in each program. -/
def acquireIdx : TaskKind → Nat
  | TaskKind.genuineTx => 1
  | TaskKind.callCapture => 0

/-- Position of `release` in each program. -/
def releaseIdx : TaskKind → Nat
  | TaskKind.genuineTx => 3
  | TaskKind.callCapture => 5

/-- Observable events of the gate model: a performed program step, joining the
lock's wait queue, and being granted the lock (immediately on a free lock, or
handed off from the queue by a release). -/
inductive GateEvent where
  | acted (a : GateAction)
  | enqueued
  | granted (fromQueue : Bool)
deriving DecidableEq, Repr

/-- State of the interleaving model: the (fixed) kind of every task, each
task's program counter, the lock holder, the lock's FIFO wait queue, and the
event history. -/
structure Sys where
  kinds : Nat → TaskKind
  pcs : Nat → Nat
  lockHolder : Option Nat
  queue : List Nat
  events : List (Nat × GateEvent)

/-- Initial state: every task at the start of its program, lock free. -/
def initSys (kinds : Nat → TaskKind) : Sys :=
  { kinds := kinds, pcs := fun _ => 0, lockHolder := none, queue := [], events := [] }

/-- One scheduling step of task `i`.  An `acquire` of a free, unqueued lock is
granted immediately; otherwise the task joins the FIFO queue and suspends (a
suspended task does nothing when scheduled — it is resumed by the hand-off in
`release`, as in semaphore-async-await where `release` resolves the first
queued acquirer's promise). -/
def step (s : Sys) (i : Nat) : Sys :=
  match (program (s.kinds i))[s.pcs i]? with
  | none => s
  | some GateAction.acquire =>
      if i ∈ s.queue then s
      else if s.lockHolder = none ∧ s.queue = [] then
        { s with lockHolder := some i
                 pcs := Function.update s.pcs i (s.pcs i + 1)
                 events := s.events ++ [(i, GateEvent.granted false)] }
      else
        { s with queue := s.queue ++ [i]
                 events := s.events ++ [(i, GateEvent.enqueued)] }
  | some GateAction.release =>
      match s.queue with
      | [] =>
          { s with lockHolder := none
                   pcs := Function.update s.pcs i (s.pcs i + 1)
                   events := s.events ++ [(i, GateEvent.acted GateAction.release)] }
      | h :: rest =>
          { s with lockHolder := some h
                   queue := rest
                   pcs := Function.update (Function.update s.pcs i (s.pcs i + 1)) h
                     (s.pcs h + 1)
                   events := s.events ++ [(i, GateEvent.acted GateAction.release),
                     (h, GateEvent.granted true)] }
  | some a =>
      { s with pcs := Function.update s.pcs i (s.pcs i + 1)
               events := s.events ++ [(i, GateEvent.acted a)] }

/-- Run a whole schedule (a list of task ids) from the initial state. -/
def runSchedule (kinds : Nat → TaskKind) (sched : List Nat) : Sys :=
  sched.foldl step (initSys kinds)

/-- Task `i` is inside the gate: past its `acquire`, not yet past its
`release`. -/
def inCriticalSection (s : Sys) (i : Nat) : Prop :=
  acquireIdx (s.kinds i) < s.pcs i ∧ s.pcs i ≤ releaseIdx (s.kinds i)

instance (s : Sys) (i : Nat) : Decidable (inCriticalSection s i) :=
  inferInstanceAs (Decidable (acquireIdx (s.kinds i) < s.pcs i ∧
    s.pcs i ≤ releaseIdx (s.kinds i)))

/-- The tasks that joined the wait queue, in arrival order. -/
def enqueueOrder (evs : List (Nat × GateEvent)) : List Nat :=
  evs.filterMap fun e =>
    match e.2 with
    | GateEvent.enqueued => some e.1
    | _ => none

/-- The queued tasks that were granted the lock, in grant order. -/
def grantedFromQueueOrder (evs : List (Nat × GateEvent)) : List Nat :=
  evs.filterMap fun e =>
    match e.2 with
    | GateEvent.granted true => some e.1
    | _ => none

/-- Does a genuine transaction's node-side state mutation occur while at least
one synthetic snapshot window (between a `snapshot` and its `revert`) is open? -/
def genuineMutationInsideSnapshotWindow (kinds : Nat → TaskKind) :
    List (Nat × GateEvent) → Nat → Bool
  | [], _ => false
  | (i, ev) :: rest, depth =>
      match ev with
      | GateEvent.acted GateAction.snapshot =>
          genuineMutationInsideSnapshotWindow kinds rest (depth + 1)
      | GateEvent.acted GateAction.revert =>
          genuineMutationInsideSnapshotWindow kinds rest (depth - 1)
      | GateEvent.acted GateAction.nodeExecuteTx =>
          (decide (0 < depth) && decide (kinds i = TaskKind.genuineTx)) ||
            genuineMutationInsideSnapshotWindow kinds rest depth
      | _ => genuineMutationInsideSnapshotWindow kinds rest depth

/-- The lock invariant of the gate model: the lock holder is exactly the task
inside the gate; queued tasks sit at their `acquire`; the queue has no
duplicates; and the enqueue history equals the from-queue grant history
followed by the current queue (grants happen in arrival order). -/
structure GateInv (s : Sys) : Prop where
  holderCritical : ∀ i, inCriticalSection s i ↔ s.lockHolder = some i
  queuedAtAcquire : ∀ i ∈ s.queue, s.pcs i = acquireIdx (s.kinds i)
  queueNodup : s.queue.Nodup
  fifo : enqueueOrder s.events = grantedFromQueueOrder s.events ++ s.queue

/-- A step that never invokes the original completion callback. -/
def CbPreserving {α : Type} (m : CaptureM α) : Prop :=
  ∀ w, ((m w).2).cbCount = w.cbCount

/-- A step that can only touch the trace registry, the mine-wait counter and
the ghost extraction record: chain, snapshot stack, lock bit and callback
counter are untouched on every path. -/
def RegistryOnly {α : Type} (m : CaptureM α) : Prop :=
  ∀ w, ((m w).2).chain = w.chain ∧ ((m w).2).snapshots = w.snapshots ∧
    ((m w).2).lockHeld = w.lockHeld ∧ ((m w).2).cbCount = w.cbCount

/-- A node that answers every request successfully: every fetch succeeds, the
extractor returns the root frame carrying the whole log. -/
def nbAllOk : NodeBehavior :=
  { snapshotOk := true
    revertOk := true
    sendOk := fun _ => true
    sendHash := fun _ => "0xfakehash"
    mineOk := fun _ _ => true
    traceOk := fun _ => true
    traceLogs := fun _ => [1, 2]
    codeOk := fun _ => true
    code := fun a => "code:" ++ a
    blockOk := true
    blockTransactions := [("0xinput1", "0xhash1")]
    extract := fun logs root => [(root, logs)] }

/-- A node on which transaction submission fails (and everything else works). -/
def nbSendFail : NodeBehavior := { nbAllOk with sendOk := fun _ => false }

/-- A node on which taking a snapshot fails (and everything else works). -/
def nbSnapshotFail : NodeBehavior := { nbAllOk with snapshotOk := false }

/-- A node on which the trace fetch fails (and everything else works). -/
def nbTraceFail : NodeBehavior := { nbAllOk with traceOk := fun _ => false }

/-- A node on which only the second and later mine-waits on a hash fail. -/
def nbMineFailLater : NodeBehavior := { nbAllOk with mineOk := fun _ n => n == 0 }

/-- A node whose extractor reports a nested contract-creation frame (the
sentinel key) alongside an ordinary subcall address. -/
def nbSentinelSubcall : NodeBehavior :=
  { nbAllOk with extract := fun _ _ => [("NEW_CONTRACT", [7]), ("0xdead", [8])] }

/-- The empty starting world. -/
def w0 : World :=
  { chain := [], snapshots := [], traceInfos := [], lockHeld := false, cbCount := 0
    mineCalls := 0, extractionRoots := [] }

/-- Instance state with all three capture toggles on. -/
def envAll : Env :=
  { defaultFromAddress := "0xdefault", isEnabled := true
    config := { shouldCollectTransactionTraces := true, shouldCollectCallTraces := true
                shouldCollectGasEstimateTraces := true } }

/-- Instance state collecting call and gas-estimate traces but not transaction
traces. -/
def envNoTxTraces : Env :=
  { defaultFromAddress := "0xdefault", isEnabled := true
    config := { shouldCollectTransactionTraces := false, shouldCollectCallTraces := true
                shouldCollectGasEstimateTraces := true } }

/-- A plain call payload with no gas field. -/
def callData0 : CallData :=
  { fromAddress? := some "0xsender", to? := some "0xabc", data? := some "0xdata"
    value? := none, gas? := none, gasPrice? := none }

/-- A call payload that specifies its own gas and an empty sender. -/
def callDataWithGas : CallData :=
  { fromAddress? := some "", to? := some "0xabc", data? := some "0xdata"
    value? := none, gas? := some 21000, gasPrice? := none }

/-- A genuine contract-deployment transaction payload (no recipient). -/
def txDataDeploy : MaybeFakeTxData :=
  { fromAddress := "0xsender", to? := none, data? := some "0xcreation"
    value? := none, gas? := some 100000, gasPrice? := none, isFakeTransaction := false }

/-- Task kinds for the gate counterexample: task 0 is a genuine transaction,
every other task a call-capture cycle. -/
def cexKinds : Nat → TaskKind :=
  fun i => if i = 0 then TaskKind.genuineTx else TaskKind.callCapture

/-- Claim C6: `handleRequest` forwards a request unmodified whenever the
component is disabled, whenever the method is none of `eth_sendTransaction`,
`eth_call`, `eth_estimateGas`, or whenever the matching capture toggle for the
method is off; in all remaining cases it forwards the request wrapped with the
corresponding capture completion hook, passing the request's first parameter as
the payload.  Stated as: `handleRequest` coincides with `specClassification`,
the rule written from the specification's words. -/
theorem c6_handleRequest_classification {α : Type} (isEnabled : Bool)
    (config : TraceCollectionSubproviderConfig) (payload : JSONRPCRequestPayload α) :
    handleRequest isEnabled config payload = specClassification isEnabled config payload := by
  cases isEnabled with
  | false => simp [handleRequest, specClassification]
  | true =>
    by_cases h1 : payload.method = "eth_sendTransaction"
    · cases h : config.shouldCollectTransactionTraces <;>
        simp [handleRequest, specClassification, h1, h]
    · by_cases h2 : payload.method = "eth_call"
      · cases h : config.shouldCollectCallTraces <;>
          simp [handleRequest, specClassification, h1, h2, h]
      · by_cases h3 : payload.method = "eth_estimateGas"
        · cases h : config.shouldCollectGasEstimateTraces <;>
            simp [handleRequest, specClassification, h1, h2, h3, h]
        · simp [handleRequest, specClassification, h1, h2, h3]

theorem cbPreserving_pure {α : Type} (a : α) : CbPreserving (pure a : CaptureM α) := by
  intro w
  rfl

theorem cbPreserving_bind {α β : Type} {m : CaptureM α} {f : α → CaptureM β}
    (hm : CbPreserving m) (hf : ∀ a, CbPreserving (f a)) : CbPreserving (m >>= f) := by
  intro w
  rcases hmw : m w with ⟨res, w'⟩
  have h1 : w'.cbCount = w.cbCount := by
    have h := hm w
    rw [hmw] at h
    exact h
  cases res with
  | ok a =>
      have h2 := hf a w'
      simp only [captureBind_def, hmw]
      rw [h2, h1]
  | error e =>
      simp only [captureBind_def, hmw]
      exact h1

theorem cbPreserving_ite {α : Type} (c : Prop) [Decidable c] {m m' : CaptureM α}
    (h1 : CbPreserving m) (h2 : CbPreserving m') : CbPreserving (if c then m else m') := by
  by_cases hc : c
  · simpa [hc] using h1
  · simpa [hc] using h2

theorem registryOnly_pure {α : Type} (a : α) : RegistryOnly (pure a : CaptureM α) := by
  intro w
  exact ⟨rfl, rfl, rfl, rfl⟩

theorem registryOnly_bind {α β : Type} {m : CaptureM α} {f : α → CaptureM β}
    (hm : RegistryOnly m) (hf : ∀ a, RegistryOnly (f a)) : RegistryOnly (m >>= f) := by
  intro w
  rcases hmw : m w with ⟨res, w'⟩
  have h1 := hm w
  rw [hmw] at h1
  cases res with
  | ok a =>
      have h2 := hf a w'
      simp only [captureBind_def, hmw]
      exact ⟨h2.1.trans h1.1, h2.2.1.trans h1.2.1, h2.2.2.1.trans h1.2.2.1,
        h2.2.2.2.trans h1.2.2.2⟩
  | error e =>
      simp only [captureBind_def, hmw]
      exact h1

theorem registryOnly_ite {α : Type} (c : Prop) [Decidable c] {m m' : CaptureM α}
    (h1 : RegistryOnly m) (h2 : RegistryOnly m') : RegistryOnly (if c then m else m') := by
  by_cases hc : c
  · simpa [hc] using h1
  · simpa [hc] using h2

theorem registryOnly_cbPreserving {α : Type} {m : CaptureM α} (h : RegistryOnly m) :
    CbPreserving m := fun w => (h w).2.2.2

theorem registryOnly_throwF {α : Type} (e : AsyncFailure) :
    RegistryOnly (throwF e : CaptureM α) := by
  intro w
  exact ⟨rfl, rfl, rfl, rfl⟩

theorem registryOnly_awaitTransactionMinedAsync (nb : NodeBehavior) (txHash : String) :
    RegistryOnly (awaitTransactionMinedAsync nb txHash) := by
  intro w
  by_cases h : nb.mineOk txHash w.mineCalls <;>
    simp [awaitTransactionMinedAsync, h]

theorem registryOnly_getTransactionTraceAsync (nb : NodeBehavior) (txHash : String) :
    RegistryOnly (getTransactionTraceAsync nb txHash) := by
  intro w
  by_cases h : nb.traceOk txHash <;> simp [getTransactionTraceAsync, h]

theorem registryOnly_getContractCodeAsync (nb : NodeBehavior) (address : String) :
    RegistryOnly (getContractCodeAsync nb address) := by
  intro w
  by_cases h : nb.codeOk address <;> simp [getContractCodeAsync, h]

theorem registryOnly_getBlockWithTransactionDataAsync (nb : NodeBehavior) :
    RegistryOnly (getBlockWithTransactionDataAsync nb) := by
  intro w
  by_cases h : nb.blockOk <;> simp [getBlockWithTransactionDataAsync, h]

theorem registryOnly_modifyTraceInfos (f : World → List TraceInfo) :
    RegistryOnly (modifyW fun w => { w with traceInfos := f w }) := by
  intro w
  exact ⟨rfl, rfl, rfl, rfl⟩

theorem registryOnly_modifyExtractionRoots (f : World → List String) :
    RegistryOnly (modifyW fun w => { w with extractionRoots := f w }) := by
  intro w
  exact ⟨rfl, rfl, rfl, rfl⟩

theorem cbPreserving_lockAcquire : CbPreserving lockAcquire := by
  intro w
  by_cases h : w.lockHeld <;> simp [lockAcquire, h]

theorem cbPreserving_lockRelease : CbPreserving lockRelease := by
  intro w
  rfl

theorem cbPreserving_blockchainLifecycleStartAsync (nb : NodeBehavior) :
    CbPreserving (blockchainLifecycleStartAsync nb) := by
  intro w
  by_cases h : nb.snapshotOk <;> simp [blockchainLifecycleStartAsync, h]

theorem cbPreserving_blockchainLifecycleRevertAsync (nb : NodeBehavior) :
    CbPreserving (blockchainLifecycleRevertAsync nb) := by
  intro w
  by_cases h : nb.revertOk
  · cases hs : w.snapshots <;> simp [blockchainLifecycleRevertAsync, h, hs]
  · simp [blockchainLifecycleRevertAsync, h]

theorem cbPreserving_modifyChain (f : World → List MaybeFakeTxData) :
    CbPreserving (modifyW fun w => { w with chain := f w }) := by
  intro w
  rfl

theorem cbPreserving_tryCatchRejected {body : CaptureM Unit} (h : CbPreserving body) :
    CbPreserving (tryCatchRejected body) := by
  intro w
  rcases hb : body w with ⟨res, w'⟩
  have h1 : w'.cbCount = w.cbCount := by
    have hh := h w
    rw [hb] at hh
    exact hh
  cases res with
  | ok a => simpa [tryCatchRejected, hb] using h1
  | error e => cases e <;> simpa [tryCatchRejected, hb] using h1

theorem registryOnly_recordLoopNewContract (nb : NodeBehavior) (data? : Option String)
    (txHash : String) (pairs : List (String × List StructLogEntry)) :
    RegistryOnly (recordLoopNewContract nb data? txHash pairs) := by
  induction pairs with
  | nil => exact registryOnly_pure ()
  | cons p rest ih =>
      obtain ⟨a, t⟩ := p
      unfold recordLoopNewContract
      apply registryOnly_bind
      · apply registryOnly_ite
        · exact registryOnly_modifyTraceInfos _
        · exact registryOnly_bind (registryOnly_getContractCodeAsync nb a)
            (fun _ => registryOnly_modifyTraceInfos _)
      · intro _
        exact ih

theorem registryOnly_recordLoopExisting (nb : NodeBehavior) (txHash : String)
    (pairs : List (String × List StructLogEntry)) :
    RegistryOnly (recordLoopExisting nb txHash pairs) := by
  induction pairs with
  | nil => exact registryOnly_pure ()
  | cons p rest ih =>
      obtain ⟨a, t⟩ := p
      unfold recordLoopExisting
      apply registryOnly_bind (registryOnly_getContractCodeAsync nb a)
      intro _
      apply registryOnly_bind (registryOnly_modifyTraceInfos _)
      intro _
      exact ih

theorem registryOnly_recordTxTraceAsync (nb : NodeBehavior) (address : String)
    (data? : Option String) (txHash : String) :
    RegistryOnly (_recordTxTraceAsync nb address data? txHash) := by
  unfold _recordTxTraceAsync
  apply registryOnly_bind (registryOnly_awaitTransactionMinedAsync nb txHash)
  intro _
  apply registryOnly_bind (registryOnly_getTransactionTraceAsync nb txHash)
  intro structLogs
  apply registryOnly_bind (registryOnly_modifyExtractionRoots _)
  intro _
  apply registryOnly_ite
  · exact registryOnly_recordLoopNewContract nb data? txHash _
  · exact registryOnly_recordLoopExisting nb txHash _

theorem registryOnly_recordScanLoop (nb : NodeBehavior) (txData : MaybeFakeTxData)
    (txs : List (String × String)) :
    RegistryOnly (recordScanLoop nb txData txs) := by
  induction txs with
  | nil => exact registryOnly_pure ()
  | cons p rest ih =>
      obtain ⟨input, hash⟩ := p
      unfold recordScanLoop
      apply registryOnly_bind (registryOnly_recordTxTraceAsync nb _ _ hash)
      intro _
      exact ih

theorem cbPreserving_onTransactionSentAsync_pureCb (nb : NodeBehavior)
    (txData : MaybeFakeTxData) (err : Option Unit) (txHash? : Option String) :
    CbPreserving (_onTransactionSentAsync nb txData err txHash? (pure ())) := by
  unfold _onTransactionSentAsync
  apply cbPreserving_bind
  · exact cbPreserving_ite _ cbPreserving_lockAcquire (cbPreserving_pure ())
  · intro _
    apply cbPreserving_bind
    · cases err with
      | none => exact registryOnly_cbPreserving (registryOnly_recordTxTraceAsync nb _ _ _)
      | some e =>
          exact cbPreserving_bind
            (registryOnly_cbPreserving (registryOnly_getBlockWithTransactionDataAsync nb))
            (fun txs => registryOnly_cbPreserving (registryOnly_recordScanLoop nb txData txs))
    · intro _
      apply cbPreserving_bind
      · exact cbPreserving_ite _ cbPreserving_lockRelease (cbPreserving_pure ())
      · intro _
        exact cbPreserving_pure ()

theorem cbPreserving_nestedTransactionHook (nb : NodeBehavior) (env : Env)
    (tx : MaybeFakeTxData) (err : Option Unit) (txHash? : Option String) :
    CbPreserving (nestedTransactionHook nb env tx err txHash?) := by
  intro w
  unfold nestedTransactionHook
  cases houtcome : handleRequest env.isEnabled env.config
      { method := "eth_sendTransaction", params := [tx] } with
  | forwardUnmodified => rfl
  | forwardWrappedCallOrGasEstimateCapture c => rfl
  | forwardWrappedTransactionCapture txData? =>
      cases txData? with
      | none => rfl
      | some txData =>
          rcases hh : _onTransactionSentAsync nb txData err txHash? (pure ()) w with ⟨res, w'⟩
          have h1 : w'.cbCount = w.cbCount := by
            have h := cbPreserving_onTransactionSentAsync_pureCb nb txData err txHash? w
            rw [hh] at h
            exact h
          cases res <;> simp [hh, h1]

theorem cbPreserving_sendTransactionAsync (nb : NodeBehavior) (env : Env)
    (tx : MaybeFakeTxData) : CbPreserving (sendTransactionAsync nb env tx) := by
  unfold sendTransactionAsync
  apply cbPreserving_ite
  · apply cbPreserving_bind (cbPreserving_modifyChain _)
    intro _
    apply cbPreserving_bind (cbPreserving_nestedTransactionHook nb env tx none _)
    intro _
    exact cbPreserving_pure _
  · apply cbPreserving_bind (cbPreserving_nestedTransactionHook nb env tx (some ()) none)
    intro _
    exact registryOnly_cbPreserving (registryOnly_throwF AsyncFailure.rejected)

theorem cbPreserving_recordCallOrGasEstimateTraceAsync (nb : NodeBehavior) (env : Env)
    (callData : CallData) :
    CbPreserving (_recordCallOrGasEstimateTraceAsync nb env callData) := by
  unfold _recordCallOrGasEstimateTraceAsync
  apply cbPreserving_bind cbPreserving_lockAcquire
  intro _
  apply cbPreserving_bind (cbPreserving_blockchainLifecycleStartAsync nb)
  intro _
  apply cbPreserving_bind
  · apply cbPreserving_tryCatchRejected
    apply cbPreserving_bind (cbPreserving_sendTransactionAsync nb env _)
    intro txHash
    exact registryOnly_cbPreserving (registryOnly_awaitTransactionMinedAsync nb txHash)
  · intro _
    apply cbPreserving_bind (cbPreserving_blockchainLifecycleRevertAsync nb)
    intro _
    exact cbPreserving_lockRelease

theorem recordLoopExisting_ok (nb : NodeBehavior) (txHash : String)
    (hcode : ∀ a, nb.codeOk a = true) (pairs : List (String × List StructLogEntry)) :
    ∀ w : World,
    recordLoopExisting nb txHash pairs w =
      (Except.ok (),
        { w with
            traceInfos := w.traceInfos ++
              pairs.map (fun p =>
                TraceInfo.existingContract p.2 txHash p.1 (nb.code p.1)) }) := by
  induction pairs with
  | nil =>
      intro w
      cases w
      simp [recordLoopExisting, capturePure_def]
  | cons p rest ih =>
      obtain ⟨a, t⟩ := p
      intro w
      have hget : getContractCodeAsync nb a w = (Except.ok (nb.code a), w) := by
        simp [getContractCodeAsync, hcode a]
      simp only [recordLoopExisting, captureBind_def, hget, modifyW, List.map_cons]
      rw [ih]
      simp

theorem recordLoopNewContract_ok (nb : NodeBehavior) (data? : Option String) (txHash : String)
    (hcode : ∀ a, nb.codeOk a = true) (pairs : List (String × List StructLogEntry)) :
    ∀ w : World,
    recordLoopNewContract nb data? txHash pairs w =
      (Except.ok (),
        { w with
            traceInfos := w.traceInfos ++
              pairs.map (fun p =>
                if p.1 = "NEW_CONTRACT" then TraceInfo.newContract p.2 txHash p.1 data?
                else TraceInfo.existingContract p.2 txHash p.1 (nb.code p.1)) }) := by
  induction pairs with
  | nil =>
      intro w
      cases w
      simp [recordLoopNewContract, capturePure_def]
  | cons p rest ih =>
      obtain ⟨a, t⟩ := p
      intro w
      by_cases ha : a = "NEW_CONTRACT"
      · subst ha
        simp only [recordLoopNewContract, captureBind_def, modifyW, List.map_cons,
          reduceIte]
        rw [ih]
        simp
      · have hget : getContractCodeAsync nb a w = (Except.ok (nb.code a), w) := by
          simp [getContractCodeAsync, hcode a]
        simp only [recordLoopNewContract, captureBind_def, hget, modifyW, List.map_cons,
          if_neg ha]
        rw [ih]
        simp [ha]

theorem recordTxTrace_ok (nb : NodeBehavior) (address : String) (data? : Option String)
    (txHash : String) (w : World)
    (hm : nb.mineOk txHash w.mineCalls = true) (ht : nb.traceOk txHash = true)
    (hcode : ∀ a, nb.codeOk a = true) :
    _recordTxTraceAsync nb address data? txHash w =
      (Except.ok (), { w with
        mineCalls := w.mineCalls + 1
        extractionRoots := w.extractionRoots ++ [address]
        traceInfos := w.traceInfos ++
          expectedTraceInfos nb address data? txHash
            (nb.extract (nb.traceLogs txHash) address) }) := by
  have hawait : awaitTransactionMinedAsync nb txHash w =
      (Except.ok (), { w with mineCalls := w.mineCalls + 1 }) := by
    simp [awaitTransactionMinedAsync, hm]
  have htrace : ∀ w' : World,
      getTransactionTraceAsync nb txHash w' = (Except.ok (nb.traceLogs txHash), w') := by
    intro w'
    simp [getTransactionTraceAsync, ht]
  by_cases haddr : address = constants.NEW_CONTRACT
  · simp only [_recordTxTraceAsync, captureBind_def, hawait, htrace, modifyW]
    rw [if_pos haddr, recordLoopNewContract_ok nb data? txHash hcode]
    simp [expectedTraceInfos, haddr]
  · simp only [_recordTxTraceAsync, captureBind_def, hawait, htrace, modifyW]
    rw [if_neg haddr, recordLoopExisting_ok nb txHash hcode]
    simp [expectedTraceInfos, haddr]

theorem handleRequest_sendTransaction_enabled {α : Type}
    (config : TraceCollectionSubproviderConfig) (params : List α)
    (htog : config.shouldCollectTransactionTraces = true) :
    handleRequest true config { method := "eth_sendTransaction", params := params } =
      HandleRequestOutcome.forwardWrappedTransactionCapture params.head? := by
  simp [handleRequest, htog]

theorem handleRequest_sendTransaction_noCapture {α : Type} (isEnabled : Bool)
    (config : TraceCollectionSubproviderConfig) (params : List α)
    (h : isEnabled = false ∨ config.shouldCollectTransactionTraces = false) :
    handleRequest isEnabled config { method := "eth_sendTransaction", params := params } =
      HandleRequestOutcome.forwardUnmodified := by
  rcases h with h | h
  · simp [handleRequest, h]
  · cases isEnabled <;> simp [handleRequest, h]

theorem handleRequest_sendTransaction_cases {α : Type} (isEnabled : Bool)
    (config : TraceCollectionSubproviderConfig) (tx : α) :
    handleRequest isEnabled config { method := "eth_sendTransaction", params := [tx] } =
        HandleRequestOutcome.forwardUnmodified ∨
      handleRequest isEnabled config { method := "eth_sendTransaction", params := [tx] } =
        HandleRequestOutcome.forwardWrappedTransactionCapture (some tx) := by
  cases isEnabled with
  | false => exact Or.inl (handleRequest_sendTransaction_noCapture _ _ _ (Or.inl rfl))
  | true =>
      cases htog : config.shouldCollectTransactionTraces with
      | false => exact Or.inl (handleRequest_sendTransaction_noCapture _ _ _ (Or.inr htog))
      | true => exact Or.inr (handleRequest_sendTransaction_enabled config [tx] htog)

theorem onTransactionSentAsync_fake_success (nb : NodeBehavior) (tx : MaybeFakeTxData)
    (txHash? : Option String) (w : World) (htx : tx.isFakeTransaction = true)
    (hm : nb.mineOk (txHash?.getD "") w.mineCalls = true)
    (ht : nb.traceOk (txHash?.getD "") = true) (hcode : ∀ a, nb.codeOk a = true) :
    _onTransactionSentAsync nb tx none txHash? (pure ()) w =
      (Except.ok (),
        { w with
            mineCalls := w.mineCalls + 1
            extractionRoots := w.extractionRoots ++ [resolveToAddress tx]
            traceInfos := w.traceInfos ++
              expectedTraceInfos nb (resolveToAddress tx) tx.data? (txHash?.getD "")
                (nb.extract (nb.traceLogs (txHash?.getD "")) (resolveToAddress tx)) }) := by
  simp only [_onTransactionSentAsync, htx, Bool.not_true, Bool.false_eq_true, if_false,
    captureBind_def, capturePure_def]
  rw [recordTxTrace_ok nb (resolveToAddress tx) tx.data? (txHash?.getD "") w hm ht hcode]

theorem nestedTransactionHook_wrapped (nb : NodeBehavior) (env : Env)
    (tx : MaybeFakeTxData) (err : Option Unit) (txHash? : Option String) (w : World)
    (henv : env.isEnabled = true) (htog : env.config.shouldCollectTransactionTraces = true) :
    nestedTransactionHook nb env tx err txHash? w =
      (match _onTransactionSentAsync nb tx err txHash? (pure ()) w with
        | (Except.ok _, w') => (Except.ok (), w')
        | (Except.error _, w') => (Except.error AsyncFailure.stalled, w')) := by
  unfold nestedTransactionHook
  rw [henv, handleRequest_sendTransaction_enabled env.config [tx] htog]
  rfl

theorem nestedTransactionHook_unwrapped (nb : NodeBehavior) (env : Env)
    (tx : MaybeFakeTxData) (err : Option Unit) (txHash? : Option String) (w : World)
    (h : env.isEnabled = false ∨ env.config.shouldCollectTransactionTraces = false) :
    nestedTransactionHook nb env tx err txHash? w = (Except.ok (), w) := by
  unfold nestedTransactionHook
  rw [handleRequest_sendTransaction_noCapture env.isEnabled env.config [tx] h]

theorem sendTransactionAsync_captureOn_ok (nb : NodeBehavior) (env : Env)
    (tx : MaybeFakeTxData) (w : World)
    (hsend : nb.sendOk tx = true) (henv : env.isEnabled = true)
    (htog : env.config.shouldCollectTransactionTraces = true)
    (htx : tx.isFakeTransaction = true)
    (hm : nb.mineOk (nb.sendHash tx) w.mineCalls = true)
    (ht : nb.traceOk (nb.sendHash tx) = true) (hcode : ∀ a, nb.codeOk a = true) :
    sendTransactionAsync nb env tx w =
      (Except.ok (nb.sendHash tx),
        { w with
            chain := w.chain ++ [tx]
            mineCalls := w.mineCalls + 1
            extractionRoots := w.extractionRoots ++ [resolveToAddress tx]
            traceInfos := w.traceInfos ++
              expectedTraceInfos nb (resolveToAddress tx) tx.data? (nb.sendHash tx)
                (nb.extract (nb.traceLogs (nb.sendHash tx)) (resolveToAddress tx)) }) := by
  have hfake : _onTransactionSentAsync nb tx none (some (nb.sendHash tx)) (pure ())
      { w with chain := w.chain ++ [tx] } =
      (Except.ok (),
        { w with
            chain := w.chain ++ [tx]
            mineCalls := w.mineCalls + 1
            extractionRoots := w.extractionRoots ++ [resolveToAddress tx]
            traceInfos := w.traceInfos ++
              expectedTraceInfos nb (resolveToAddress tx) tx.data? (nb.sendHash tx)
                (nb.extract (nb.traceLogs (nb.sendHash tx)) (resolveToAddress tx)) }) := by
    rw [onTransactionSentAsync_fake_success nb tx (some (nb.sendHash tx))
      { w with chain := w.chain ++ [tx] } htx hm ht hcode]
    simp
  simp only [sendTransactionAsync, hsend, reduceIte, captureBind_def, modifyW]
  rw [nestedTransactionHook_wrapped nb env tx none (some (nb.sendHash tx)) _ henv htog]
  rw [hfake]
  rfl

theorem recordCallOrGasEstimate_captureOn_ok (nb : NodeBehavior) (env : Env)
    (callData : CallData) (w : World)
    (hlock : w.lockHeld = false) (hsnap : nb.snapshotOk = true) (hrev : nb.revertOk = true)
    (henv : env.isEnabled = true) (htog : env.config.shouldCollectTransactionTraces = true)
    (hsend : nb.sendOk (mkFakeTxData env.defaultFromAddress callData) = true)
    (hm : ∀ n, nb.mineOk (nb.sendHash (mkFakeTxData env.defaultFromAddress callData)) n = true)
    (ht : nb.traceOk (nb.sendHash (mkFakeTxData env.defaultFromAddress callData)) = true)
    (hcode : ∀ a, nb.codeOk a = true) :
    _recordCallOrGasEstimateTraceAsync nb env callData w =
      (Except.ok (),
        { w with
            lockHeld := false
            mineCalls := w.mineCalls + 2
            extractionRoots := w.extractionRoots ++
              [resolveToAddress (mkFakeTxData env.defaultFromAddress callData)]
            traceInfos := w.traceInfos ++
              expectedTraceInfos nb
                (resolveToAddress (mkFakeTxData env.defaultFromAddress callData))
                (mkFakeTxData env.defaultFromAddress callData).data?
                (nb.sendHash (mkFakeTxData env.defaultFromAddress callData))
                (nb.extract
                  (nb.traceLogs (nb.sendHash (mkFakeTxData env.defaultFromAddress callData)))
                  (resolveToAddress (mkFakeTxData env.defaultFromAddress callData))) }) := by
  unfold _recordCallOrGasEstimateTraceAsync
  set fake := mkFakeTxData env.defaultFromAddress callData with hfakedef
  have htx : fake.isFakeTransaction = true := by simp [hfakedef, mkFakeTxData]
  have hacq : lockAcquire w = (Except.ok (), { w with lockHeld := true }) := by
    simp [lockAcquire, hlock]
  have hstart : blockchainLifecycleStartAsync nb { w with lockHeld := true } =
      (Except.ok (),
        { w with lockHeld := true, snapshots := w.chain :: w.snapshots }) := by
    simp [blockchainLifecycleStartAsync, hsnap]
  have hsend2 := sendTransactionAsync_captureOn_ok nb env fake
    { w with lockHeld := true, snapshots := w.chain :: w.snapshots }
    hsend henv htog htx (hm _) ht hcode
  have hbody : (sendTransactionAsync nb env fake >>= fun txHash =>
      awaitTransactionMinedAsync nb txHash)
      { w with lockHeld := true, snapshots := w.chain :: w.snapshots } =
      (Except.ok (),
        { w with
            lockHeld := true
            snapshots := w.chain :: w.snapshots
            chain := w.chain ++ [fake]
            mineCalls := w.mineCalls + 1 + 1
            extractionRoots := w.extractionRoots ++ [resolveToAddress fake]
            traceInfos := w.traceInfos ++
              expectedTraceInfos nb (resolveToAddress fake) fake.data? (nb.sendHash fake)
                (nb.extract (nb.traceLogs (nb.sendHash fake)) (resolveToAddress fake)) }) := by
    rw [captureBind_def, hsend2]
    simp [awaitTransactionMinedAsync, hm]
  have htc : tryCatchRejected (sendTransactionAsync nb env fake >>= fun txHash =>
      awaitTransactionMinedAsync nb txHash)
      { w with lockHeld := true, snapshots := w.chain :: w.snapshots } =
      (Except.ok (),
        { w with
            lockHeld := true
            snapshots := w.chain :: w.snapshots
            chain := w.chain ++ [fake]
            mineCalls := w.mineCalls + 1 + 1
            extractionRoots := w.extractionRoots ++ [resolveToAddress fake]
            traceInfos := w.traceInfos ++
              expectedTraceInfos nb (resolveToAddress fake) fake.data? (nb.sendHash fake)
                (nb.extract (nb.traceLogs (nb.sendHash fake)) (resolveToAddress fake)) }) := by
    rw [tryCatchRejected, hbody]
  simp only [captureBind_def, hacq, hstart, htc]
  simp [blockchainLifecycleRevertAsync, hrev, lockRelease]

theorem recordScanLoop_isOk (nb : NodeBehavior) (txData : MaybeFakeTxData)
    (hm : ∀ h n, nb.mineOk h n = true) (ht : ∀ h, nb.traceOk h = true)
    (hcode : ∀ a, nb.codeOk a = true) (txs : List (String × String)) :
    ∀ w, (recordScanLoop nb txData txs w).1 = Except.ok () := by
  induction txs with
  | nil => intro w; rfl
  | cons p rest ih =>
      obtain ⟨input, hash⟩ := p
      intro w
      rw [recordScanLoop, captureBind_def,
        recordTxTrace_ok nb (resolveToAddress txData) (some input) hash w (hm _ _) (ht _)
          hcode]
      exact ih _

theorem onTransactionSentAsync_fake_error_ok (nb : NodeBehavior) (tx : MaybeFakeTxData)
    (w : World) (htx : tx.isFakeTransaction = true) (hblock : nb.blockOk = true)
    (hm : ∀ h n, nb.mineOk h n = true) (ht : ∀ h, nb.traceOk h = true)
    (hcode : ∀ a, nb.codeOk a = true) :
    ∃ w', _onTransactionSentAsync nb tx (some ()) none (pure ()) w = (Except.ok (), w') ∧
      w'.chain = w.chain ∧ w'.snapshots = w.snapshots ∧ w'.lockHeld = w.lockHeld ∧
      w'.cbCount = w.cbCount := by
  have hgb : getBlockWithTransactionDataAsync nb w = (Except.ok nb.blockTransactions, w) := by
    simp [getBlockWithTransactionDataAsync, hblock]
  rcases hs : recordScanLoop nb tx nb.blockTransactions w with ⟨res, w'⟩
  have hres : res = Except.ok () := by
    have h2 := recordScanLoop_isOk nb tx hm ht hcode nb.blockTransactions w
    rw [hs] at h2
    exact h2
  subst hres
  have hframe := registryOnly_recordScanLoop nb tx nb.blockTransactions w
  rw [hs] at hframe
  refine ⟨w', ?_, hframe.1, hframe.2.1, hframe.2.2.1, hframe.2.2.2⟩
  simp only [_onTransactionSentAsync, htx, Bool.not_true, Bool.false_eq_true, if_false,
    captureBind_def, capturePure_def, hgb, hs]

theorem nestedTransactionHook_error_ok (nb : NodeBehavior) (env : Env)
    (tx : MaybeFakeTxData) (w : World) (htx : tx.isFakeTransaction = true)
    (hblock : nb.blockOk = true) (hm : ∀ h n, nb.mineOk h n = true)
    (ht : ∀ h, nb.traceOk h = true) (hcode : ∀ a, nb.codeOk a = true) :
    ∃ w', nestedTransactionHook nb env tx (some ()) none w = (Except.ok (), w') ∧
      w'.chain = w.chain ∧ w'.snapshots = w.snapshots ∧ w'.lockHeld = w.lockHeld ∧
      w'.cbCount = w.cbCount := by
  unfold nestedTransactionHook
  rcases handleRequest_sendTransaction_cases env.isEnabled env.config tx with h | h <;> rw [h]
  · exact ⟨w, rfl, rfl, rfl, rfl, rfl⟩
  · obtain ⟨w', hw', hc, hsn, hl, hcb⟩ :=
      onTransactionSentAsync_fake_error_ok nb tx w htx hblock hm ht hcode
    exact ⟨w', by simp [hw'], hc, hsn, hl, hcb⟩

theorem cycle_ok_lock_released (nb : NodeBehavior) (env : Env) (callData : CallData)
    (w : World)
    (h : (_recordCallOrGasEstimateTraceAsync nb env callData w).1 = Except.ok ()) :
    ((_recordCallOrGasEstimateTraceAsync nb env callData w).2).lockHeld = false := by
  by_cases hl : w.lockHeld
  · exfalso
    simp [_recordCallOrGasEstimateTraceAsync, captureBind_def, lockAcquire, hl] at h
  · have hacq : lockAcquire w = (Except.ok (), { w with lockHeld := true }) := by
      simp [lockAcquire, hl]
    by_cases hsn : nb.snapshotOk
    · have hstart : blockchainLifecycleStartAsync nb { w with lockHeld := true } =
          (Except.ok (),
            { w with lockHeld := true, snapshots := w.chain :: w.snapshots }) := by
        simp [blockchainLifecycleStartAsync, hsn]
      rcases hb : tryCatchRejected
          (sendTransactionAsync nb env (mkFakeTxData env.defaultFromAddress callData) >>=
            fun txHash => awaitTransactionMinedAsync nb txHash)
          { w with lockHeld := true, snapshots := w.chain :: w.snapshots } with ⟨res3, w3⟩
      cases res3 with
      | error e =>
          exfalso
          simp only [_recordCallOrGasEstimateTraceAsync, captureBind_def, hacq, hstart,
            hb] at h
          exact Except.noConfusion h
      | ok u =>
          cases u
          by_cases hrev : nb.revertOk
          · rcases hsnap3 : w3.snapshots with _ | ⟨s, rest⟩
            · exfalso
              have hrevert : blockchainLifecycleRevertAsync nb w3 =
                  (Except.error AsyncFailure.rejected, w3) := by
                simp [blockchainLifecycleRevertAsync, hrev, hsnap3]
              simp only [_recordCallOrGasEstimateTraceAsync, captureBind_def, hacq, hstart,
                hb, hrevert] at h
              exact Except.noConfusion h
            · have hrevert : blockchainLifecycleRevertAsync nb w3 =
                  (Except.ok (), { w3 with chain := s, snapshots := rest }) := by
                simp [blockchainLifecycleRevertAsync, hrev, hsnap3]
              simp only [_recordCallOrGasEstimateTraceAsync, captureBind_def, hacq, hstart,
                hb, hrevert, lockRelease]
          · exfalso
            have hrevert : blockchainLifecycleRevertAsync nb w3 =
                (Except.error AsyncFailure.rejected, w3) := by
              simp [blockchainLifecycleRevertAsync, hrev]
            simp only [_recordCallOrGasEstimateTraceAsync, captureBind_def, hacq, hstart,
              hb, hrevert] at h
            exact Except.noConfusion h
    · exfalso
      have hstart : blockchainLifecycleStartAsync nb { w with lockHeld := true } =
          (Except.error AsyncFailure.rejected, { w with lockHeld := true }) := by
        simp [blockchainLifecycleStartAsync, hsn]
      simp only [_recordCallOrGasEstimateTraceAsync, captureBind_def, hacq, hstart] at h
      exact Except.noConfusion h

theorem onTransactionSent_ok_lock_released (nb : NodeBehavior) (txData : MaybeFakeTxData)
    (err : Option Unit) (txHash? : Option String) (w : World)
    (hgen : txData.isFakeTransaction = false)
    (h : (_onTransactionSentAsync nb txData err txHash? invokeCb w).1 = Except.ok ()) :
    ((_onTransactionSentAsync nb txData err txHash? invokeCb w).2).lockHeld = false := by
  by_cases hl : w.lockHeld
  · exfalso
    simp [_onTransactionSentAsync, hgen, lockAcquire, hl, captureBind_def] at h
  · have hacq : lockAcquire w = (Except.ok (), { w with lockHeld := true }) := by
      simp [lockAcquire, hl]
    cases err with
    | none =>
        rcases hr : _recordTxTraceAsync nb (resolveToAddress txData) txData.data?
            (txHash?.getD "") { w with lockHeld := true } with ⟨res, w2⟩
        cases res with
        | error e =>
            exfalso
            simp only [_onTransactionSentAsync, hgen, Bool.not_false, if_true,
              captureBind_def, hacq, hr] at h
            exact Except.noConfusion h
        | ok u =>
            cases u
            simp only [_onTransactionSentAsync, hgen, Bool.not_false, if_true,
              captureBind_def, hacq, hr, lockRelease, invokeCb]
    | some e0 =>
        by_cases hbk : nb.blockOk
        · have hgb : getBlockWithTransactionDataAsync nb { w with lockHeld := true } =
              (Except.ok nb.blockTransactions, { w with lockHeld := true }) := by
            simp [getBlockWithTransactionDataAsync, hbk]
          rcases hsc : recordScanLoop nb txData nb.blockTransactions
              { w with lockHeld := true } with ⟨res, w2⟩
          cases res with
          | error e =>
              exfalso
              simp only [_onTransactionSentAsync, hgen, Bool.not_false, if_true,
                captureBind_def, hacq, hgb, hsc] at h
              exact Except.noConfusion h
          | ok u =>
              cases u
              simp only [_onTransactionSentAsync, hgen, Bool.not_false, if_true,
                captureBind_def, hacq, hgb, hsc, lockRelease, invokeCb]
        · exfalso
          have hgb : getBlockWithTransactionDataAsync nb { w with lockHeld := true } =
              (Except.error AsyncFailure.rejected, { w with lockHeld := true }) := by
            simp [getBlockWithTransactionDataAsync, hbk]
          simp only [_onTransactionSentAsync, hgen, Bool.not_false, if_true,
            captureBind_def, hacq, hgb] at h
          exact Except.noConfusion h

theorem onCallOrGasEstimate_cb_counts (nb : NodeBehavior) (env : Env) (callData : CallData)
    (e0 : Option Unit) (r0 : String) (w : World) :
    ((_onCallOrGasEstimateExecutedAsync nb env callData e0 r0 invokeCb w).1 = Except.ok () →
      ((_onCallOrGasEstimateExecutedAsync nb env callData e0 r0 invokeCb w).2).cbCount =
        w.cbCount + 1) ∧
    (∀ e, (_onCallOrGasEstimateExecutedAsync nb env callData e0 r0 invokeCb w).1 =
        Except.error e →
      ((_onCallOrGasEstimateExecutedAsync nb env callData e0 r0 invokeCb w).2).cbCount =
        w.cbCount) := by
  rcases hc : _recordCallOrGasEstimateTraceAsync nb env callData w with ⟨res, w'⟩
  have hcb : w'.cbCount = w.cbCount := by
    have h2 := cbPreserving_recordCallOrGasEstimateTraceAsync nb env callData w
    rw [hc] at h2
    exact h2
  cases res with
  | ok u =>
      cases u
      constructor
      · intro _
        simp only [_onCallOrGasEstimateExecutedAsync, captureBind_def, hc, invokeCb]
        rw [hcb]
      · intro e he
        exfalso
        simp only [_onCallOrGasEstimateExecutedAsync, captureBind_def, hc, invokeCb] at he
        exact Except.noConfusion he
  | error e1 =>
      constructor
      · intro hok
        exfalso
        simp only [_onCallOrGasEstimateExecutedAsync, captureBind_def, hc] at hok
        exact Except.noConfusion hok
      · intro e he
        simp only [_onCallOrGasEstimateExecutedAsync, captureBind_def, hc]
        exact hcb

theorem onTransactionSent_cb_counts (nb : NodeBehavior) (txData : MaybeFakeTxData)
    (err : Option Unit) (txHash? : Option String) (w : World) :
    ((_onTransactionSentAsync nb txData err txHash? invokeCb w).1 = Except.ok () →
      ((_onTransactionSentAsync nb txData err txHash? invokeCb w).2).cbCount =
        w.cbCount + 1) ∧
    (∀ e, (_onTransactionSentAsync nb txData err txHash? invokeCb w).1 = Except.error e →
      ((_onTransactionSentAsync nb txData err txHash? invokeCb w).2).cbCount =
        w.cbCount) := by
  have hp1 : CbPreserving (if !txData.isFakeTransaction then lockAcquire else pure ()) :=
    cbPreserving_ite _ cbPreserving_lockAcquire (cbPreserving_pure ())
  rcases h1 : (if !txData.isFakeTransaction then lockAcquire else pure ()) w with ⟨res1, w1⟩
  have hcb1 : w1.cbCount = w.cbCount := by
    have h2 := hp1 w
    rw [h1] at h2
    exact h2
  cases res1 with
  | error e1 =>
      constructor
      · intro hok
        exfalso
        simp only [_onTransactionSentAsync, captureBind_def, h1] at hok
        exact Except.noConfusion hok
      · intro e he
        simp only [_onTransactionSentAsync, captureBind_def, h1]
        exact hcb1
  | ok u1 =>
      cases u1
      have hp2 : CbPreserving (match err with
        | none =>
            _recordTxTraceAsync nb (resolveToAddress txData) txData.data? (txHash?.getD "")
        | some _ =>
            getBlockWithTransactionDataAsync nb >>= fun transactions =>
            recordScanLoop nb txData transactions) := by
        cases err with
        | none => exact registryOnly_cbPreserving (registryOnly_recordTxTraceAsync nb _ _ _)
        | some e0 =>
            exact cbPreserving_bind
              (registryOnly_cbPreserving (registryOnly_getBlockWithTransactionDataAsync nb))
              (fun txs => registryOnly_cbPreserving (registryOnly_recordScanLoop nb txData txs))
      rcases h2 : (match err with
        | none =>
            _recordTxTraceAsync nb (resolveToAddress txData) txData.data? (txHash?.getD "")
        | some _ =>
            getBlockWithTransactionDataAsync nb >>= fun transactions =>
            recordScanLoop nb txData transactions) w1 with ⟨res2, w2⟩
      have hcb2 : w2.cbCount = w1.cbCount := by
        have h3 := hp2 w1
        rw [h2] at h3
        exact h3
      cases res2 with
      | error e2 =>
          constructor
          · intro hok
            exfalso
            simp only [_onTransactionSentAsync, captureBind_def, h1, h2] at hok
            exact Except.noConfusion hok
          · intro e he
            simp only [_onTransactionSentAsync, captureBind_def, h1, h2]
            rw [hcb2, hcb1]
      | ok u2 =>
          cases u2
          have hp3 : CbPreserving (if !txData.isFakeTransaction then lockRelease else pure ()) :=
            cbPreserving_ite _ cbPreserving_lockRelease (cbPreserving_pure ())
          rcases h3 : (if !txData.isFakeTransaction then lockRelease else pure ()) w2
            with ⟨res3, w3⟩
          have hcb3 : w3.cbCount = w2.cbCount := by
            have h4 := hp3 w2
            rw [h3] at h4
            exact h4
          cases res3 with
          | error e3 =>
              constructor
              · intro hok
                exfalso
                simp only [_onTransactionSentAsync, captureBind_def, h1, h2, h3] at hok
                exact Except.noConfusion hok
              · intro e he
                simp only [_onTransactionSentAsync, captureBind_def, h1, h2, h3]
                rw [hcb3, hcb2, hcb1]
          | ok u3 =>
              cases u3
              constructor
              · intro _
                simp only [_onTransactionSentAsync, captureBind_def, h1, h2, h3, invokeCb]
                rw [hcb3, hcb2, hcb1]
              · intro e he
                exfalso
                simp only [_onTransactionSentAsync, captureBind_def, h1, h2, h3,
                  invokeCb] at he
                exact Except.noConfusion he

theorem program_get_acquireIdx (k : TaskKind) :
    (program k)[acquireIdx k]? = some GateAction.acquire := by
  cases k <;> rfl

theorem program_get_releaseIdx (k : TaskKind) :
    (program k)[releaseIdx k]? = some GateAction.release := by
  cases k <;> rfl

theorem acquireIdx_lt_releaseIdx (k : TaskKind) : acquireIdx k < releaseIdx k := by
  cases k <;> decide

theorem acquireIdx_add_one_le_releaseIdx (k : TaskKind) :
    acquireIdx k + 1 ≤ releaseIdx k := by
  cases k <;> decide

theorem acquireIdx_ne_releaseIdx (k : TaskKind) : acquireIdx k ≠ releaseIdx k := by
  cases k <;> decide

theorem pc_of_acquire (k : TaskKind) (pc : Nat)
    (h : (program k)[pc]? = some GateAction.acquire) : pc = acquireIdx k := by
  cases k <;>
    rcases pc with _ | _ | _ | _ | _ | _ | pc <;>
    simp_all [program, acquireIdx]

theorem pc_of_release (k : TaskKind) (pc : Nat)
    (h : (program k)[pc]? = some GateAction.release) : pc = releaseIdx k := by
  cases k <;>
    rcases pc with _ | _ | _ | _ | _ | _ | pc <;>
    simp_all [program, releaseIdx]

theorem pc_ne_acquireIdx_of_other (k : TaskKind) (pc : Nat) (a : GateAction)
    (h : (program k)[pc]? = some a) (hne : a ≠ GateAction.acquire) :
    pc ≠ acquireIdx k := by
  intro heq
  rw [heq, program_get_acquireIdx] at h
  exact hne (Option.some.inj h).symm

theorem pc_ne_releaseIdx_of_other (k : TaskKind) (pc : Nat) (a : GateAction)
    (h : (program k)[pc]? = some a) (hne : a ≠ GateAction.release) :
    pc ≠ releaseIdx k := by
  intro heq
  rw [heq, program_get_releaseIdx] at h
  exact hne (Option.some.inj h).symm

theorem enqueueOrder_append (a b : List (Nat × GateEvent)) :
    enqueueOrder (a ++ b) = enqueueOrder a ++ enqueueOrder b := by
  simp [enqueueOrder, List.filterMap_append]

theorem grantedFromQueueOrder_append (a b : List (Nat × GateEvent)) :
    grantedFromQueueOrder (a ++ b) =
      grantedFromQueueOrder a ++ grantedFromQueueOrder b := by
  simp [grantedFromQueueOrder, List.filterMap_append]

theorem step_eq_of_none (s : Sys) (i : Nat)
    (hprog : (program (s.kinds i))[s.pcs i]? = none) : step s i = s := by
  unfold step
  rw [hprog]

theorem step_eq_of_other (s : Sys) (i : Nat) (a : GateAction)
    (hprog : (program (s.kinds i))[s.pcs i]? = some a)
    (h1 : a ≠ GateAction.acquire) (h2 : a ≠ GateAction.release) :
    step s i = { s with
                 pcs := Function.update s.pcs i (s.pcs i + 1),
                 events := s.events ++ [(i, GateEvent.acted a)] } := by
  unfold step
  rw [hprog]
  cases a <;> first
    | rfl
    | exact absurd rfl h1
    | exact absurd rfl h2

theorem step_eq_acquire_waiting (s : Sys) (i : Nat)
    (hprog : (program (s.kinds i))[s.pcs i]? = some GateAction.acquire)
    (hq : i ∈ s.queue) : step s i = s := by
  unfold step
  rw [hprog]
  simp [hq]

theorem step_eq_acquire_free (s : Sys) (i : Nat)
    (hprog : (program (s.kinds i))[s.pcs i]? = some GateAction.acquire)
    (hq : i ∉ s.queue) (hfree : s.lockHolder = none ∧ s.queue = []) :
    step s i = { s with
                 lockHolder := some i,
                 pcs := Function.update s.pcs i (s.pcs i + 1),
                 events := s.events ++ [(i, GateEvent.granted false)] } := by
  unfold step
  rw [hprog]
  simp [hq, hfree.1, hfree.2]

theorem step_eq_acquire_busy (s : Sys) (i : Nat)
    (hprog : (program (s.kinds i))[s.pcs i]? = some GateAction.acquire)
    (hq : i ∉ s.queue) (hbusy : ¬(s.lockHolder = none ∧ s.queue = [])) :
    step s i = { s with
                 queue := s.queue ++ [i],
                 events := s.events ++ [(i, GateEvent.enqueued)] } := by
  unfold step
  rw [hprog]
  simp [hq, hbusy]

theorem step_eq_release_empty (s : Sys) (i : Nat)
    (hprog : (program (s.kinds i))[s.pcs i]? = some GateAction.release)
    (hq : s.queue = []) :
    step s i = { s with
                 lockHolder := none,
                 pcs := Function.update s.pcs i (s.pcs i + 1),
                 events := s.events ++ [(i, GateEvent.acted GateAction.release)] } := by
  unfold step
  rw [hprog, hq]

theorem step_eq_release_handoff (s : Sys) (i h : Nat) (rest : List Nat)
    (hprog : (program (s.kinds i))[s.pcs i]? = some GateAction.release)
    (hq : s.queue = h :: rest) :
    step s i = { s with
                 lockHolder := some h,
                 queue := rest,
                 pcs := Function.update (Function.update s.pcs i (s.pcs i + 1)) h
                   (s.pcs h + 1),
                 events := s.events ++ [(i, GateEvent.acted GateAction.release),
                   (h, GateEvent.granted true)] } := by
  unfold step
  rw [hprog, hq]

theorem gateInv_step_other (s : Sys) (i : Nat) (a : GateAction)
    (hprog : (program (s.kinds i))[s.pcs i]? = some a)
    (h1 : a ≠ GateAction.acquire) (h2 : a ≠ GateAction.release)
    (hinv : GateInv s) :
    GateInv { s with
              pcs := Function.update s.pcs i (s.pcs i + 1),
              events := s.events ++ [(i, GateEvent.acted a)] } := by
  obtain ⟨hcrit, hqueue, hnodup, hfifo⟩ := hinv
  have hne_acq : s.pcs i ≠ acquireIdx (s.kinds i) :=
    pc_ne_acquireIdx_of_other (s.kinds i) (s.pcs i) a hprog h1
  have hne_rel : s.pcs i ≠ releaseIdx (s.kinds i) :=
    pc_ne_releaseIdx_of_other (s.kinds i) (s.pcs i) a hprog h2
  have hiq : i ∉ s.queue := fun hin => hne_acq (hqueue i hin)
  refine ⟨?_, ?_, hnodup, ?_⟩
  · intro j
    by_cases hji : j = i
    · subst hji
      have heq : inCriticalSection { s with
          pcs := Function.update s.pcs j (s.pcs j + 1),
          events := s.events ++ [(j, GateEvent.acted a)] } j ↔ inCriticalSection s j := by
        simp only [inCriticalSection, Function.update_same]
        omega
      rw [heq]
      exact hcrit j
    · have heq : inCriticalSection { s with
          pcs := Function.update s.pcs i (s.pcs i + 1),
          events := s.events ++ [(i, GateEvent.acted a)] } j ↔ inCriticalSection s j := by
        simp only [inCriticalSection, Function.update_noteq hji]
      rw [heq]
      exact hcrit j
  · intro j hj
    have hjne : j ≠ i := fun he => hiq (he ▸ hj)
    simp only [Function.update_noteq hjne]
    exact hqueue j hj
  · simp only [enqueueOrder_append, grantedFromQueueOrder_append]
    have e1 : enqueueOrder [(i, GateEvent.acted a)] = [] := rfl
    have e2 : grantedFromQueueOrder [(i, GateEvent.acted a)] = [] := rfl
    rw [e1, e2]
    simpa using hfifo

theorem gateInv_step_acquire_free (s : Sys) (i : Nat)
    (hprog : (program (s.kinds i))[s.pcs i]? = some GateAction.acquire)
    (hfree : s.lockHolder = none ∧ s.queue = []) (hinv : GateInv s) :
    GateInv { s with
              lockHolder := some i,
              pcs := Function.update s.pcs i (s.pcs i + 1),
              events := s.events ++ [(i, GateEvent.granted false)] } := by
  obtain ⟨hcrit, hqueue, hnodup, hfifo⟩ := hinv
  have hpc : s.pcs i = acquireIdx (s.kinds i) :=
    pc_of_acquire (s.kinds i) (s.pcs i) hprog
  refine ⟨?_, ?_, ?_, ?_⟩
  · intro j
    by_cases hji : j = i
    · subst hji
      apply iff_of_true
      · constructor
        · simp only [inCriticalSection, Function.update_same, hpc]
          omega
        · simp only [Function.update_same, hpc]
          exact acquireIdx_add_one_le_releaseIdx (s.kinds j)
      · rfl
    · apply iff_of_false
      · intro hc
        have hc' : inCriticalSection s j := by
          simpa only [inCriticalSection, Function.update_noteq hji] using hc
        have := (hcrit j).mp hc'
        rw [hfree.1] at this
        exact Option.noConfusion this
      · intro hh
        exact hji (Option.some.inj hh).symm
  · intro j hj
    rw [hfree.2] at hj
    exact absurd hj (List.not_mem_nil j)
  · exact hnodup
  · simp only [enqueueOrder_append, grantedFromQueueOrder_append]
    have e1 : enqueueOrder [(i, GateEvent.granted false)] = [] := rfl
    have e2 : grantedFromQueueOrder [(i, GateEvent.granted false)] = [] := rfl
    rw [e1, e2]
    simpa using hfifo

theorem gateInv_step_acquire_busy (s : Sys) (i : Nat)
    (hprog : (program (s.kinds i))[s.pcs i]? = some GateAction.acquire)
    (hq : i ∉ s.queue) (hinv : GateInv s) :
    GateInv { s with
              queue := s.queue ++ [i],
              events := s.events ++ [(i, GateEvent.enqueued)] } := by
  obtain ⟨hcrit, hqueue, hnodup, hfifo⟩ := hinv
  have hpc : s.pcs i = acquireIdx (s.kinds i) :=
    pc_of_acquire (s.kinds i) (s.pcs i) hprog
  refine ⟨?_, ?_, ?_, ?_⟩
  · intro j
    exact hcrit j
  · intro j hj
    rcases List.mem_append.mp hj with hj | hj
    · exact hqueue j hj
    · have hji : j = i := by simpa using hj
      subst hji
      exact hpc
  · rw [List.nodup_append]
    refine ⟨hnodup, List.nodup_singleton i, ?_⟩
    intro x hx hx'
    have : x = i := by simpa using hx'
    subst this
    exact hq hx
  · simp only [enqueueOrder_append, grantedFromQueueOrder_append]
    have e1 : enqueueOrder [(i, GateEvent.enqueued)] = [i] := rfl
    have e2 : grantedFromQueueOrder [(i, GateEvent.enqueued)] = [] := rfl
    rw [e1, e2, hfifo]
    simp

theorem gateInv_step_release_empty (s : Sys) (i : Nat)
    (hprog : (program (s.kinds i))[s.pcs i]? = some GateAction.release)
    (hq : s.queue = []) (hinv : GateInv s) :
    GateInv { s with
              lockHolder := none,
              pcs := Function.update s.pcs i (s.pcs i + 1),
              events := s.events ++ [(i, GateEvent.acted GateAction.release)] } := by
  obtain ⟨hcrit, hqueue, hnodup, hfifo⟩ := hinv
  have hpc : s.pcs i = releaseIdx (s.kinds i) :=
    pc_of_release (s.kinds i) (s.pcs i) hprog
  have hcriti : inCriticalSection s i :=
    ⟨by rw [hpc]; exact acquireIdx_lt_releaseIdx (s.kinds i), by rw [hpc]⟩
  have hholder : s.lockHolder = some i := (hcrit i).mp hcriti
  refine ⟨?_, ?_, hnodup, ?_⟩
  · intro j
    by_cases hji : j = i
    · subst hji
      apply iff_of_false
      · intro hc
        have := hc.2
        simp only [Function.update_same, hpc] at this
        omega
      · intro hh
        exact Option.noConfusion hh
    · apply iff_of_false
      · intro hc
        have hc' : inCriticalSection s j := by
          simpa only [inCriticalSection, Function.update_noteq hji] using hc
        have := (hcrit j).mp hc'
        rw [hholder] at this
        exact hji (Option.some.inj this).symm
      · intro hh
        exact Option.noConfusion hh
  · intro j hj
    rw [hq] at hj
    exact absurd hj (List.not_mem_nil j)
  · simp only [enqueueOrder_append, grantedFromQueueOrder_append]
    have e1 : enqueueOrder [(i, GateEvent.acted GateAction.release)] = [] := rfl
    have e2 : grantedFromQueueOrder [(i, GateEvent.acted GateAction.release)] = [] := rfl
    rw [e1, e2]
    simpa using hfifo

theorem gateInv_step_release_handoff (s : Sys) (i h : Nat) (rest : List Nat)
    (hprog : (program (s.kinds i))[s.pcs i]? = some GateAction.release)
    (hq : s.queue = h :: rest) (hinv : GateInv s) :
    GateInv { s with
              lockHolder := some h,
              queue := rest,
              pcs := Function.update (Function.update s.pcs i (s.pcs i + 1)) h
                (s.pcs h + 1),
              events := s.events ++ [(i, GateEvent.acted GateAction.release),
                (h, GateEvent.granted true)] } := by
  obtain ⟨hcrit, hqueue, hnodup, hfifo⟩ := hinv
  have hpc : s.pcs i = releaseIdx (s.kinds i) :=
    pc_of_release (s.kinds i) (s.pcs i) hprog
  have hcriti : inCriticalSection s i :=
    ⟨by rw [hpc]; exact acquireIdx_lt_releaseIdx (s.kinds i), by rw [hpc]⟩
  have hholder : s.lockHolder = some i := (hcrit i).mp hcriti
  have hhm : h ∈ s.queue := by rw [hq]; exact List.mem_cons_self h rest
  have hpch : s.pcs h = acquireIdx (s.kinds h) := hqueue h hhm
  have hhi : h ≠ i := by
    intro he
    subst he
    rw [hpch] at hpc
    exact acquireIdx_ne_releaseIdx (s.kinds h) hpc
  have hiq : i ∉ s.queue := by
    intro hin
    have := hqueue i hin
    rw [hpc] at this
    exact acquireIdx_ne_releaseIdx (s.kinds i) this.symm
  have hrest_nodup : rest.Nodup := by
    rw [hq] at hnodup
    exact (List.nodup_cons.mp hnodup).2
  have hh_notin_rest : h ∉ rest := by
    rw [hq] at hnodup
    exact (List.nodup_cons.mp hnodup).1
  have hpcs_i : Function.update (Function.update s.pcs i (s.pcs i + 1)) h (s.pcs h + 1) i =
      s.pcs i + 1 := by
    rw [Function.update_noteq (fun he => hhi he.symm), Function.update_same]
  have hpcs_h : Function.update (Function.update s.pcs i (s.pcs i + 1)) h (s.pcs h + 1) h =
      s.pcs h + 1 := Function.update_same h _ _
  refine ⟨?_, ?_, hrest_nodup, ?_⟩
  · intro j
    by_cases hjh : j = h
    · subst hjh
      apply iff_of_true
      · constructor
        · show acquireIdx (s.kinds j) <
            Function.update (Function.update s.pcs i (s.pcs i + 1)) j (s.pcs j + 1) j
          rw [Function.update_same, hpch]
          omega
        · show Function.update (Function.update s.pcs i (s.pcs i + 1)) j (s.pcs j + 1) j ≤
            releaseIdx (s.kinds j)
          rw [Function.update_same, hpch]
          exact acquireIdx_add_one_le_releaseIdx (s.kinds j)
      · rfl
    · by_cases hji : j = i
      · subst hji
        apply iff_of_false
        · intro hc
          have h2 : Function.update (Function.update s.pcs j (s.pcs j + 1)) h
              (s.pcs h + 1) j ≤ releaseIdx (s.kinds j) := hc.2
          rw [Function.update_noteq (fun he => hhi he.symm), Function.update_same,
            hpc] at h2
          omega
        · intro hh2
          have hh3 : some h = some j := hh2
          exact hjh (Option.some.inj hh3).symm
      · have hpcs_j : Function.update (Function.update s.pcs i (s.pcs i + 1)) h
            (s.pcs h + 1) j = s.pcs j := by
          rw [Function.update_noteq hjh, Function.update_noteq hji]
        apply iff_of_false
        · intro hc
          have hc' : inCriticalSection s j := by
            simpa only [inCriticalSection, hpcs_j] using hc
          have := (hcrit j).mp hc'
          rw [hholder] at this
          exact hji (Option.some.inj this).symm
        · intro hh2
          have hh3 : some h = some j := hh2
          exact hjh (Option.some.inj hh3).symm
  · intro j hj
    have hjq : j ∈ s.queue := by
      rw [hq]
      exact List.mem_cons_of_mem h hj
    have hjh : j ≠ h := fun he => hh_notin_rest (he ▸ hj)
    have hji : j ≠ i := fun he => hiq (he ▸ hjq)
    show Function.update (Function.update s.pcs i (s.pcs i + 1)) h (s.pcs h + 1) j =
      acquireIdx (s.kinds j)
    rw [Function.update_noteq hjh, Function.update_noteq hji]
    exact hqueue j hjq
  · simp only [enqueueOrder_append, grantedFromQueueOrder_append]
    have e1 : enqueueOrder [(i, GateEvent.acted GateAction.release),
        (h, GateEvent.granted true)] = [] := rfl
    have e2 : grantedFromQueueOrder [(i, GateEvent.acted GateAction.release),
        (h, GateEvent.granted true)] = [h] := rfl
    rw [e1, e2, hfifo, hq]
    simp

theorem gateInv_step (s : Sys) (i : Nat) (hinv : GateInv s) : GateInv (step s i) := by
  rcases hprog : (program (s.kinds i))[s.pcs i]? with _ | a
  · rw [step_eq_of_none s i hprog]
    exact hinv
  · cases a with
    | acquire =>
        by_cases hq : i ∈ s.queue
        · rw [step_eq_acquire_waiting s i hprog hq]
          exact hinv
        · by_cases hfree : s.lockHolder = none ∧ s.queue = []
          · rw [step_eq_acquire_free s i hprog hq hfree]
            exact gateInv_step_acquire_free s i hprog hfree hinv
          · rw [step_eq_acquire_busy s i hprog hq hfree]
            exact gateInv_step_acquire_busy s i hprog hq hinv
    | release =>
        rcases hqq : s.queue with _ | ⟨h, rest⟩
        · rw [step_eq_release_empty s i hprog hqq]
          exact gateInv_step_release_empty s i hprog hqq hinv
        · rw [step_eq_release_handoff s i h rest hprog hqq]
          exact gateInv_step_release_handoff s i h rest hprog hqq hinv
    | nodeExecuteTx =>
        rw [step_eq_of_other s i _ hprog (by simp) (by simp)]
        exact gateInv_step_other s i _ hprog (by simp) (by simp) hinv
    | snapshot =>
        rw [step_eq_of_other s i _ hprog (by simp) (by simp)]
        exact gateInv_step_other s i _ hprog (by simp) (by simp) hinv
    | executeFakeTx =>
        rw [step_eq_of_other s i _ hprog (by simp) (by simp)]
        exact gateInv_step_other s i _ hprog (by simp) (by simp) hinv
    | record =>
        rw [step_eq_of_other s i _ hprog (by simp) (by simp)]
        exact gateInv_step_other s i _ hprog (by simp) (by simp) hinv
    | revert =>
        rw [step_eq_of_other s i _ hprog (by simp) (by simp)]
        exact gateInv_step_other s i _ hprog (by simp) (by simp) hinv

theorem gateInv_init (kinds : Nat → TaskKind) : GateInv (initSys kinds) := by
  refine ⟨?_, ?_, ?_, ?_⟩
  · intro i
    apply iff_of_false
    · intro hc
      exact absurd hc.1 (by simp [initSys])
    · intro hh
      exact absurd hh (by simp [initSys])
  · intro i hi
    exact absurd hi (by simp [initSys])
  · simp [initSys]
  · simp [initSys, enqueueOrder, grantedFromQueueOrder]

theorem gateInv_run (kinds : Nat → TaskKind) (sched : List Nat) :
    GateInv (runSchedule kinds sched) := by
  have hgen : ∀ (l : List Nat) (s : Sys), GateInv s → GateInv (l.foldl step s) := by
    intro l
    induction l with
    | nil => intro s hs; exact hs
    | cons x xs ih =>
        intro s hs
        exact ih (step s x) (gateInv_step s x hs)
  exact hgen sched (initSys kinds) (gateInv_init kinds)

theorem expectedTraceInfos_ne_nil (nb : NodeBehavior) (address : String)
    (data? : Option String) (txHash : String)
    (pairs : List (String × List StructLogEntry)) (hne : pairs ≠ []) :
    expectedTraceInfos nb address data? txHash pairs ≠ [] := by
  unfold expectedTraceInfos
  split <;> simp [hne]

theorem onTransactionSentAsync_success_world (nb : NodeBehavior)
    (txData : MaybeFakeTxData) (txHash? : Option String) (w : World)
    (hlock : w.lockHeld = false)
    (hm : ∀ n, nb.mineOk (txHash?.getD "") n = true)
    (ht : nb.traceOk (txHash?.getD "") = true) (hcode : ∀ a, nb.codeOk a = true) :
    _onTransactionSentAsync nb txData none txHash? invokeCb w =
      (Except.ok (),
        { w with
            lockHeld := false,
            mineCalls := w.mineCalls + 1,
            extractionRoots := w.extractionRoots ++ [resolveToAddress txData],
            traceInfos := w.traceInfos ++
              expectedTraceInfos nb (resolveToAddress txData) txData.data?
                (txHash?.getD "")
                (nb.extract (nb.traceLogs (txHash?.getD "")) (resolveToAddress txData)),
            cbCount := w.cbCount + 1 }) := by
  cases htx : txData.isFakeTransaction with
  | false =>
      have hacq : lockAcquire w = (Except.ok (), { w with lockHeld := true }) := by
        simp [lockAcquire, hlock]
      simp only [_onTransactionSentAsync, htx, Bool.not_false, if_true, captureBind_def,
        hacq]
      rw [recordTxTrace_ok nb (resolveToAddress txData) txData.data? (txHash?.getD "")
        { w with lockHeld := true } (hm _) ht hcode]
      simp [lockRelease, invokeCb]
  | true =>
      simp only [_onTransactionSentAsync, htx, Bool.not_true, Bool.false_eq_true, if_false,
        captureBind_def, capturePure_def]
      rw [recordTxTrace_ok nb (resolveToAddress txData) txData.data? (txHash?.getD "")
        w (hm _) ht hcode]
      simp [invokeCb, hlock]

/-- Claim C1 counterexample: with call-trace capture on but transaction-trace
capture off, a captured `eth_call` cycle completes and restores chain state,
yet the trace registry gains no entry at all — the registry append happens only
inside the wrapped completion of the nested synthetic `eth_sendTransaction`,
which is not wrapped when `shouldCollectTransactionTraces` is false.  This
refutes the claim that every captured call leaves at least one new `TraceInfo`. -/
theorem c1_counterexample :
    (_recordCallOrGasEstimateTraceAsync nbAllOk envNoTxTraces callData0 w0).1 =
        Except.ok () ∧
      ((_recordCallOrGasEstimateTraceAsync nbAllOk envNoTxTraces callData0 w0).2).chain =
        w0.chain ∧
      ((_recordCallOrGasEstimateTraceAsync nbAllOk envNoTxTraces callData0 w0).2).snapshots =
        w0.snapshots ∧
      ((_recordCallOrGasEstimateTraceAsync nbAllOk envNoTxTraces callData0 w0).2).traceInfos =
        w0.traceInfos :=
  ⟨rfl, rfl, rfl, rfl⟩

/-- Claim C1 (amended): for every call or gas-estimate capture cycle that runs
with the gate free and a well-behaved node, the cycle completes, chain state
and the snapshot stack end identical to their state before the cycle, the gate
ends released — and, provided transaction-trace capture is also enabled (the
registry append happens in the nested transaction hook of the synthetic send)
and extraction returns at least one entry, the trace registry gains at least
one new `TraceInfo`. -/
theorem c1_capture_cycle_state_restored_registry_grows
    (nb : NodeBehavior) (env : Env) (callData : CallData) (w : World)
    (hlock : w.lockHeld = false) (hsnap : nb.snapshotOk = true) (hrev : nb.revertOk = true)
    (henv : env.isEnabled = true)
    (htog : env.config.shouldCollectTransactionTraces = true)
    (hsend : nb.sendOk (mkFakeTxData env.defaultFromAddress callData) = true)
    (hm : ∀ n, nb.mineOk (nb.sendHash (mkFakeTxData env.defaultFromAddress callData)) n =
      true)
    (ht : nb.traceOk (nb.sendHash (mkFakeTxData env.defaultFromAddress callData)) = true)
    (hcode : ∀ a, nb.codeOk a = true)
    (hext : nb.extract
        (nb.traceLogs (nb.sendHash (mkFakeTxData env.defaultFromAddress callData)))
        (resolveToAddress (mkFakeTxData env.defaultFromAddress callData)) ≠ []) :
    (_recordCallOrGasEstimateTraceAsync nb env callData w).1 = Except.ok () ∧
    ((_recordCallOrGasEstimateTraceAsync nb env callData w).2).chain = w.chain ∧
    ((_recordCallOrGasEstimateTraceAsync nb env callData w).2).snapshots = w.snapshots ∧
    ((_recordCallOrGasEstimateTraceAsync nb env callData w).2).lockHeld = false ∧
    ∃ t, ((_recordCallOrGasEstimateTraceAsync nb env callData w).2).traceInfos =
        w.traceInfos ++ t ∧ t ≠ [] := by
  rw [recordCallOrGasEstimate_captureOn_ok nb env callData w hlock hsnap hrev henv htog
    hsend hm ht hcode]
  refine ⟨rfl, rfl, rfl, rfl,
    expectedTraceInfos nb (resolveToAddress (mkFakeTxData env.defaultFromAddress callData))
      (mkFakeTxData env.defaultFromAddress callData).data?
      (nb.sendHash (mkFakeTxData env.defaultFromAddress callData))
      (nb.extract
        (nb.traceLogs (nb.sendHash (mkFakeTxData env.defaultFromAddress callData)))
        (resolveToAddress (mkFakeTxData env.defaultFromAddress callData))), rfl, ?_⟩
  exact expectedTraceInfos_ne_nil nb _ _ _ _ hext

/-- Witness for C1: a concrete capture cycle on an all-successful node with all
toggles on restores state and grows the registry. -/
theorem c1_capture_cycle_witness :
    (_recordCallOrGasEstimateTraceAsync nbAllOk envAll callData0 w0).1 = Except.ok () ∧
    ((_recordCallOrGasEstimateTraceAsync nbAllOk envAll callData0 w0).2).chain = w0.chain ∧
    ((_recordCallOrGasEstimateTraceAsync nbAllOk envAll callData0 w0).2).snapshots =
      w0.snapshots ∧
    ((_recordCallOrGasEstimateTraceAsync nbAllOk envAll callData0 w0).2).lockHeld = false ∧
    ∃ t, ((_recordCallOrGasEstimateTraceAsync nbAllOk envAll callData0 w0).2).traceInfos =
        w0.traceInfos ++ t ∧ t ≠ [] :=
  c1_capture_cycle_state_restored_registry_grows nbAllOk envAll callData0 w0 rfl rfl rfl
    rfl rfl rfl (fun _ => rfl) rfl (fun _ => rfl) (by decide)

/-- Claim C2 counterexample: in the interleaving model, after the schedule
`[1, 1, 0]` (call-capture task 1 acquires the gate and takes its snapshot, then
the node executes genuine transaction 0 — `handleRequest` never blocks the send
itself, only the completion hook acquires the gate), a genuine transaction's
state mutation lies inside an open synthetic snapshot window.  This refutes the
claim that no snapshot/revert window ever overlaps a genuine transaction's
state mutation. -/
theorem c2_counterexample :
    genuineMutationInsideSnapshotWindow cexKinds
      (runSchedule cexKinds [1, 1, 0]).events 0 = true := by
  decide

/-- Claim C2 (amended): the gate serializes its critical sections — in every
reachable state at most one task (a genuine transaction's trace-recording hook
or a full synthetic call/snapshot cycle) is between its `acquire` and its
`release` — and the lock is granted to queued tasks in FIFO arrival order (the
enqueue history equals the from-queue grant history followed by the current
queue).  However, a genuine transaction's state mutation happens at the node
before its completion hook acquires the gate, so it can fall inside a synthetic
snapshot window (see the counterexample). -/
theorem c2_gate_mutual_exclusion_and_fifo (kinds : Nat → TaskKind) (sched : List Nat) :
    (∀ i j, inCriticalSection (runSchedule kinds sched) i →
        inCriticalSection (runSchedule kinds sched) j → i = j) ∧
    enqueueOrder (runSchedule kinds sched).events =
      grantedFromQueueOrder (runSchedule kinds sched).events ++
        (runSchedule kinds sched).queue := by
  obtain ⟨hcrit, _, _, hfifo⟩ := gateInv_run kinds sched
  refine ⟨?_, hfifo⟩
  intro i j hi hj
  have h1 := (hcrit i).mp hi
  have h2 := (hcrit j).mp hj
  rw [h1] at h2
  exact Option.some.inj h2

/-- Witness for C2: after `[1, 1, 0, 0]` the call-capture task is in its
critical section (mutual exclusion applied at it), and the genuine transaction
that arrived meanwhile sits in the queue consistently with the FIFO history. -/
theorem c2_gate_witness :
    (1 : Nat) = 1 ∧
    enqueueOrder (runSchedule cexKinds [1, 1, 0, 0]).events =
      grantedFromQueueOrder (runSchedule cexKinds [1, 1, 0, 0]).events ++
        (runSchedule cexKinds [1, 1, 0, 0]).queue :=
  ⟨(c2_gate_mutual_exclusion_and_fifo cexKinds [1, 1, 0, 0]).1 1 1 (by decide) (by decide),
   (c2_gate_mutual_exclusion_and_fifo cexKinds [1, 1, 0, 0]).2⟩

/-- Claim C3 counterexample: when taking the snapshot fails, the capture cycle
propagates the error after having acquired the gate and before any release —
there is no `try`/`finally` around the cycle — so the gate is left permanently
held.  This refutes the claim that the gate is released on every exit path,
including a failing snapshot operation. -/
theorem c3_counterexample :
    (_recordCallOrGasEstimateTraceAsync nbSnapshotFail envAll callData0 w0).1 =
        Except.error AsyncFailure.rejected ∧
      ((_recordCallOrGasEstimateTraceAsync nbSnapshotFail envAll callData0 w0).2).lockHeld =
        true :=
  ⟨rfl, rfl⟩

/-- Claim C3 (amended): the gate is released on every path on which the capture
procedure completes normally — which includes the paths where synthetic
submission or the mine-wait reject, since those rejections are caught — both
for the call/estimate capture cycle and for a genuine transaction's capture
hook; but a path that raises an uncaught error (snapshot start or revert,
trace fetch, code fetch, block scan) exits with the gate still held, as the
counterexample shows. -/
theorem c3_gate_released_on_completion :
    (∀ (nb : NodeBehavior) (env : Env) (callData : CallData) (w : World),
        (_recordCallOrGasEstimateTraceAsync nb env callData w).1 = Except.ok () →
        ((_recordCallOrGasEstimateTraceAsync nb env callData w).2).lockHeld = false) ∧
    (∀ (nb : NodeBehavior) (txData : MaybeFakeTxData) (err : Option Unit)
        (txHash? : Option String) (w : World),
        txData.isFakeTransaction = false →
        (_onTransactionSentAsync nb txData err txHash? invokeCb w).1 = Except.ok () →
        ((_onTransactionSentAsync nb txData err txHash? invokeCb w).2).lockHeld = false) :=
  ⟨fun nb env callData w h => cycle_ok_lock_released nb env callData w h,
   fun nb txData err txHash? w hgen h =>
     onTransactionSent_ok_lock_released nb txData err txHash? w hgen h⟩

/-- Witness for C3: a completing concrete cycle ends with the gate released. -/
theorem c3_gate_released_witness :
    ((_recordCallOrGasEstimateTraceAsync nbAllOk envAll callData0 w0).2).lockHeld = false :=
  c3_gate_released_on_completion.1 nbAllOk envAll callData0 w0 rfl

/-- Claim C4 counterexample: when the snapshot fails, the call/estimate
completion wrapper propagates the error before invoking the original completion
hook, so the hook is invoked zero times, not exactly once.  This refutes the
claim that the original completion hook is invoked exactly once regardless of
any failure inside the capture procedure. -/
theorem c4_counterexample :
    (_onCallOrGasEstimateExecutedAsync nbSnapshotFail envAll callData0 none "0x" invokeCb
        w0).1 = Except.error AsyncFailure.rejected ∧
      ((_onCallOrGasEstimateExecutedAsync nbSnapshotFail envAll callData0 none "0x" invokeCb
        w0).2).cbCount = 0 :=
  ⟨rfl, rfl⟩

/-- Claim C4 (amended): for both wrapped completions, the original completion
hook is invoked exactly once on every run on which the capture procedure
completes (including runs where a caught synthetic-submission failure was
swallowed), and zero times on every run on which an uncaught error escapes the
capture procedure. -/
theorem c4_completion_hook_counts :
    (∀ (nb : NodeBehavior) (env : Env) (callData : CallData) (e0 : Option Unit)
        (r0 : String) (w : World),
        ((_onCallOrGasEstimateExecutedAsync nb env callData e0 r0 invokeCb w).1 =
            Except.ok () →
          ((_onCallOrGasEstimateExecutedAsync nb env callData e0 r0 invokeCb w).2).cbCount =
            w.cbCount + 1) ∧
        (∀ e, (_onCallOrGasEstimateExecutedAsync nb env callData e0 r0 invokeCb w).1 =
            Except.error e →
          ((_onCallOrGasEstimateExecutedAsync nb env callData e0 r0 invokeCb w).2).cbCount =
            w.cbCount)) ∧
    (∀ (nb : NodeBehavior) (txData : MaybeFakeTxData) (err : Option Unit)
        (txHash? : Option String) (w : World),
        ((_onTransactionSentAsync nb txData err txHash? invokeCb w).1 = Except.ok () →
          ((_onTransactionSentAsync nb txData err txHash? invokeCb w).2).cbCount =
            w.cbCount + 1) ∧
        (∀ e, (_onTransactionSentAsync nb txData err txHash? invokeCb w).1 =
            Except.error e →
          ((_onTransactionSentAsync nb txData err txHash? invokeCb w).2).cbCount =
            w.cbCount)) :=
  ⟨fun nb env callData e0 r0 w => onCallOrGasEstimate_cb_counts nb env callData e0 r0 w,
   fun nb txData err txHash? w => onTransactionSent_cb_counts nb txData err txHash? w⟩

/-- Witness for C4: a completing concrete call capture invokes the completion
hook exactly once. -/
theorem c4_completion_hook_witness :
    ((_onCallOrGasEstimateExecutedAsync nbAllOk envAll callData0 none "0x" invokeCb
        w0).2).cbCount = w0.cbCount + 1 :=
  (c4_completion_hook_counts.1 nbAllOk envAll callData0 none "0x" w0).1 rfl

/-- Claim C5: if submission of the synthetic transaction fails (first
disjunct), or its mining wait fails after the nested hook completed (second
disjunct), the failure is swallowed by the `try/catch` and not surfaced — the
cycle completes normally — and the snapshot is still reverted (chain and
snapshot stack end as before the cycle) and the gate is still released. -/
theorem c5_synthetic_failure_swallowed (nb : NodeBehavior) (env : Env)
    (callData : CallData) (w : World)
    (hlock : w.lockHeld = false) (hsnap : nb.snapshotOk = true) (hrev : nb.revertOk = true)
    (hfail :
      (nb.sendOk (mkFakeTxData env.defaultFromAddress callData) = false ∧
        nb.blockOk = true ∧ (∀ h n, nb.mineOk h n = true) ∧
        (∀ h, nb.traceOk h = true) ∧ (∀ a, nb.codeOk a = true)) ∨
      (nb.sendOk (mkFakeTxData env.defaultFromAddress callData) = true ∧
        env.isEnabled = true ∧ env.config.shouldCollectTransactionTraces = true ∧
        nb.mineOk (nb.sendHash (mkFakeTxData env.defaultFromAddress callData))
          w.mineCalls = true ∧
        nb.mineOk (nb.sendHash (mkFakeTxData env.defaultFromAddress callData))
          (w.mineCalls + 1) = false ∧
        nb.traceOk (nb.sendHash (mkFakeTxData env.defaultFromAddress callData)) = true ∧
        (∀ a, nb.codeOk a = true))) :
    (_recordCallOrGasEstimateTraceAsync nb env callData w).1 = Except.ok () ∧
    ((_recordCallOrGasEstimateTraceAsync nb env callData w).2).chain = w.chain ∧
    ((_recordCallOrGasEstimateTraceAsync nb env callData w).2).snapshots = w.snapshots ∧
    ((_recordCallOrGasEstimateTraceAsync nb env callData w).2).lockHeld = false := by
  have hacq : lockAcquire w = (Except.ok (), { w with lockHeld := true }) := by
    simp [lockAcquire, hlock]
  have hstart : blockchainLifecycleStartAsync nb { w with lockHeld := true } =
      (Except.ok (), { w with lockHeld := true, snapshots := w.chain :: w.snapshots }) := by
    simp [blockchainLifecycleStartAsync, hsnap]
  rcases hfail with ⟨hsend, hblock, hm, ht, hcode⟩ |
    ⟨hsend, henv, htog, hm0, hm1, ht, hcode⟩
  · obtain ⟨w3, hw3, hc3, hs3, hl3, hcb3⟩ := nestedTransactionHook_error_ok nb env
      (mkFakeTxData env.defaultFromAddress callData)
      { w with lockHeld := true, snapshots := w.chain :: w.snapshots } rfl hblock hm ht
      hcode
    have hsendeval : sendTransactionAsync nb env
        (mkFakeTxData env.defaultFromAddress callData)
        { w with lockHeld := true, snapshots := w.chain :: w.snapshots } =
        (Except.error AsyncFailure.rejected, w3) := by
      simp only [sendTransactionAsync, hsend, Bool.false_eq_true, if_false, captureBind_def,
        hw3, throwF]
    have hbody : (sendTransactionAsync nb env
        (mkFakeTxData env.defaultFromAddress callData) >>= fun txHash =>
          awaitTransactionMinedAsync nb txHash)
        { w with lockHeld := true, snapshots := w.chain :: w.snapshots } =
        (Except.error AsyncFailure.rejected, w3) := by
      rw [captureBind_def, hsendeval]
    have htc : tryCatchRejected (sendTransactionAsync nb env
        (mkFakeTxData env.defaultFromAddress callData) >>= fun txHash =>
          awaitTransactionMinedAsync nb txHash)
        { w with lockHeld := true, snapshots := w.chain :: w.snapshots } =
        (Except.ok (), w3) := by
      rw [tryCatchRejected, hbody]
    have hrevert : blockchainLifecycleRevertAsync nb w3 =
        (Except.ok (), { w3 with chain := w.chain, snapshots := w.snapshots }) := by
      simp [blockchainLifecycleRevertAsync, hrev, hs3]
    have hres : _recordCallOrGasEstimateTraceAsync nb env callData w =
        (Except.ok (),
          { w3 with chain := w.chain, snapshots := w.snapshots, lockHeld := false }) := by
      simp only [_recordCallOrGasEstimateTraceAsync, captureBind_def, hacq, hstart, htc,
        hrevert, lockRelease]
    rw [hres]
    exact ⟨rfl, rfl, rfl, rfl⟩
  · have hsend2 := sendTransactionAsync_captureOn_ok nb env
      (mkFakeTxData env.defaultFromAddress callData)
      { w with lockHeld := true, snapshots := w.chain :: w.snapshots }
      hsend henv htog rfl hm0 ht hcode
    have hbody : (sendTransactionAsync nb env
        (mkFakeTxData env.defaultFromAddress callData) >>= fun txHash =>
          awaitTransactionMinedAsync nb txHash)
        { w with lockHeld := true, snapshots := w.chain :: w.snapshots } =
        (Except.error AsyncFailure.rejected,
          { w with
              lockHeld := true
              snapshots := w.chain :: w.snapshots
              chain := w.chain ++ [mkFakeTxData env.defaultFromAddress callData]
              mineCalls := w.mineCalls + 1 + 1
              extractionRoots := w.extractionRoots ++
                [resolveToAddress (mkFakeTxData env.defaultFromAddress callData)]
              traceInfos := w.traceInfos ++
                expectedTraceInfos nb
                  (resolveToAddress (mkFakeTxData env.defaultFromAddress callData))
                  (mkFakeTxData env.defaultFromAddress callData).data?
                  (nb.sendHash (mkFakeTxData env.defaultFromAddress callData))
                  (nb.extract
                    (nb.traceLogs
                      (nb.sendHash (mkFakeTxData env.defaultFromAddress callData)))
                    (resolveToAddress (mkFakeTxData env.defaultFromAddress callData))) }) := by
      rw [captureBind_def, hsend2]
      simp [awaitTransactionMinedAsync, hm1]
    have htc : tryCatchRejected (sendTransactionAsync nb env
        (mkFakeTxData env.defaultFromAddress callData) >>= fun txHash =>
          awaitTransactionMinedAsync nb txHash)
        { w with lockHeld := true, snapshots := w.chain :: w.snapshots } =
        (Except.ok (),
          { w with
              lockHeld := true
              snapshots := w.chain :: w.snapshots
              chain := w.chain ++ [mkFakeTxData env.defaultFromAddress callData]
              mineCalls := w.mineCalls + 1 + 1
              extractionRoots := w.extractionRoots ++
                [resolveToAddress (mkFakeTxData env.defaultFromAddress callData)]
              traceInfos := w.traceInfos ++
                expectedTraceInfos nb
                  (resolveToAddress (mkFakeTxData env.defaultFromAddress callData))
                  (mkFakeTxData env.defaultFromAddress callData).data?
                  (nb.sendHash (mkFakeTxData env.defaultFromAddress callData))
                  (nb.extract
                    (nb.traceLogs
                      (nb.sendHash (mkFakeTxData env.defaultFromAddress callData)))
                    (resolveToAddress (mkFakeTxData env.defaultFromAddress callData))) }) := by
      rw [tryCatchRejected, hbody]
    have hres : _recordCallOrGasEstimateTraceAsync nb env callData w =
        (Except.ok (),
          { w with
              lockHeld := false
              mineCalls := w.mineCalls + 1 + 1
              extractionRoots := w.extractionRoots ++
                [resolveToAddress (mkFakeTxData env.defaultFromAddress callData)]
              traceInfos := w.traceInfos ++
                expectedTraceInfos nb
                  (resolveToAddress (mkFakeTxData env.defaultFromAddress callData))
                  (mkFakeTxData env.defaultFromAddress callData).data?
                  (nb.sendHash (mkFakeTxData env.defaultFromAddress callData))
                  (nb.extract
                    (nb.traceLogs
                      (nb.sendHash (mkFakeTxData env.defaultFromAddress callData)))
                    (resolveToAddress (mkFakeTxData env.defaultFromAddress callData))) }) := by
      simp only [_recordCallOrGasEstimateTraceAsync, captureBind_def, hacq, hstart, htc]
      simp [blockchainLifecycleRevertAsync, hrev, lockRelease]
    rw [hres]
    exact ⟨rfl, rfl, rfl, rfl⟩

/-- Witness for C5: a concrete cycle whose synthetic submission fails completes
normally with state restored and the gate released. -/
theorem c5_synthetic_failure_witness :
    (_recordCallOrGasEstimateTraceAsync nbSendFail envAll callData0 w0).1 = Except.ok () ∧
    ((_recordCallOrGasEstimateTraceAsync nbSendFail envAll callData0 w0).2).chain =
      w0.chain ∧
    ((_recordCallOrGasEstimateTraceAsync nbSendFail envAll callData0 w0).2).snapshots =
      w0.snapshots ∧
    ((_recordCallOrGasEstimateTraceAsync nbSendFail envAll callData0 w0).2).lockHeld =
      false :=
  c5_synthetic_failure_swallowed nbSendFail envAll callData0 w0 rfl rfl rfl
    (Or.inl ⟨rfl, rfl, fun _ _ => rfl, fun _ => rfl, fun _ => rfl⟩)

/-- Claim C7: on the success path of transaction capture (no error reported),
the recipient used to key trace extraction is recorded exactly once and equals
the payload's explicit `to` field when that is present and differs from the
null address `0x0`, and the new-contract sentinel when `to` is absent or equals
the null address. -/
theorem c7_success_recipient_resolution (nb : NodeBehavior) (txData : MaybeFakeTxData)
    (txHash? : Option String) (w : World)
    (hlock : w.lockHeld = false)
    (hm : ∀ n, nb.mineOk (txHash?.getD "") n = true)
    (ht : nb.traceOk (txHash?.getD "") = true) (hcode : ∀ a, nb.codeOk a = true) :
    ((_onTransactionSentAsync nb txData none txHash? invokeCb w).2).extractionRoots =
      w.extractionRoots ++ [resolveToAddress txData] ∧
    ((txData.to? = none ∨ txData.to? = some NULL_ADDRESS) →
      resolveToAddress txData = constants.NEW_CONTRACT) ∧
    (∀ t, txData.to? = some t → t ≠ NULL_ADDRESS → resolveToAddress txData = t) := by
  refine ⟨?_, ?_, ?_⟩
  · rw [onTransactionSentAsync_success_world nb txData txHash? w hlock hm ht hcode]
  · rintro (h | h) <;> simp [resolveToAddress, h]
  · intro t h hne
    simp [resolveToAddress, h, hne]

/-- Witness for C7: a concrete deployment payload (no `to`) keys extraction by
the new-contract sentinel. -/
theorem c7_recipient_witness :
    ((_onTransactionSentAsync nbAllOk txDataDeploy none (some "0xh") invokeCb
        w0).2).extractionRoots = [constants.NEW_CONTRACT] ∧
      resolveToAddress txDataDeploy = constants.NEW_CONTRACT :=
  ⟨by
    have h := (c7_success_recipient_resolution nbAllOk txDataDeploy (some "0xh") w0 rfl
      (fun _ => rfl) rfl (fun _ => rfl)).1
    rw [h]
    decide,
   (c7_success_recipient_resolution nbAllOk txDataDeploy (some "0xh") w0 rfl
      (fun _ => rfl) rfl (fun _ => rfl)).2.1 (Or.inl rfl)⟩

/-- Claim C8 counterexample: a call payload that carries its own `gas` (21000)
and an empty `from` yields a synthetic transaction whose gas is the payload's
21000 — the object spread `...callData` overrides the `gas: BLOCK_GAS_LIMIT`
default written before it — not the fixed ceiling 6000000, and whose sender is
the configured default, not the payload's (empty) sender.  This refutes the
claim that the synthetic transaction's gas is always 6000000 and that the
sender is the payload's whenever present. -/
theorem c8_counterexample :
    (mkFakeTxData "0xdefault" callDataWithGas).gas? = some 21000 ∧
    (mkFakeTxData "0xdefault" callDataWithGas).gas? ≠ some BLOCK_GAS_LIMIT ∧
    (mkFakeTxData "0xdefault" callDataWithGas).fromAddress = "0xdefault" ∧
    (mkFakeTxData "0xdefault" callDataWithGas).fromAddress ≠ "" := by
  refine ⟨rfl, ?_, rfl, ?_⟩ <;> decide

/-- Claim C8 (amended): the synthetic transaction always carries the
fake-transaction marker; its gas is the payload's gas when the payload
specifies one and the fixed ceiling 6000000 otherwise; its sender is the
payload's sender when present and non-empty, and the configured default sender
otherwise. -/
theorem c8_fake_transaction_fields (defaultFromAddress : String) (callData : CallData) :
    (mkFakeTxData defaultFromAddress callData).isFakeTransaction = true ∧
    (mkFakeTxData defaultFromAddress callData).gas? =
      some (callData.gas?.getD BLOCK_GAS_LIMIT) ∧
    (∀ f, callData.fromAddress? = some f → f ≠ "" →
      (mkFakeTxData defaultFromAddress callData).fromAddress = f) ∧
    ((callData.fromAddress? = none ∨ callData.fromAddress? = some "") →
      (mkFakeTxData defaultFromAddress callData).fromAddress = defaultFromAddress) := by
  refine ⟨rfl, ?_, ?_, ?_⟩
  · cases h : callData.gas? <;> simp [mkFakeTxData, h]
  · intro f hf hne
    simp [mkFakeTxData, hf, hne]
  · rintro (hf | hf) <;> simp [mkFakeTxData, hf]

/-- Witness for C8: a payload with a non-empty sender and no gas yields the
sender itself, the gas ceiling and the synthetic marker. -/
theorem c8_fake_transaction_witness :
    (mkFakeTxData "0xdefault" callData0).fromAddress = "0xsender" ∧
    (mkFakeTxData "0xdefault" callData0).gas? = some BLOCK_GAS_LIMIT ∧
    (mkFakeTxData "0xdefault" callData0).isFakeTransaction = true :=
  ⟨(c8_fake_transaction_fields "0xdefault" callData0).2.2.1 "0xsender" rfl (by decide),
   by
     have h := (c8_fake_transaction_fields "0xdefault" callData0).2.1
     simpa [callData0] using h,
   (c8_fake_transaction_fields "0xdefault" callData0).1⟩

/-- Claim C9 counterexample: a recorded transaction whose root address is an
ordinary address (`0xabc`) but whose extraction output contains the
new-contract sentinel key (a nested creation) appends an `ExistingContract`
record for the sentinel key — built from a code fetch at the literal address
`NEW_CONTRACT` — not the `NewContract` variant carrying the payload's data.
This refutes the "regardless of whether the root address of the transaction is
the sentinel" part of the claim. -/
theorem c9_counterexample :
    ((_recordTxTraceAsync nbSentinelSubcall "0xabc" (some "0xcreation") "0xt"
        w0).2).traceInfos =
      [TraceInfo.existingContract [7] "0xt" "NEW_CONTRACT" "code:NEW_CONTRACT",
       TraceInfo.existingContract [8] "0xt" "0xdead" "code:0xdead"] ∧
    ((_recordTxTraceAsync nbSentinelSubcall "0xabc" (some "0xcreation") "0xt"
        w0).2).traceInfos ≠
      [TraceInfo.newContract [7] "0xt" "NEW_CONTRACT" (some "0xcreation"),
       TraceInfo.existingContract [8] "0xt" "0xdead" "code:0xdead"] := by
  refine ⟨rfl, ?_⟩
  decide

/-- Claim C9 (amended): for a recorded transaction on a well-behaved node, the
appended records are exactly `expectedTraceInfos`: when the root address is the
sentinel, a sentinel key yields the `NewContract` variant with the payload's
submitted data and any other key yields an `ExistingContract` with the code
fetched post-execution; when the root address is not the sentinel, every key —
the sentinel included — yields an `ExistingContract` with fetched code. -/
theorem c9_variant_selection (nb : NodeBehavior) (address : String) (data? : Option String)
    (txHash : String) (w : World)
    (hm : nb.mineOk txHash w.mineCalls = true) (ht : nb.traceOk txHash = true)
    (hcode : ∀ a, nb.codeOk a = true) :
    ((_recordTxTraceAsync nb address data? txHash w).2).traceInfos =
      w.traceInfos ++
        expectedTraceInfos nb address data? txHash
          (nb.extract (nb.traceLogs txHash) address) := by
  rw [recordTxTrace_ok nb address data? txHash w hm ht hcode]

/-- Witness for C9: a concrete sentinel-rooted recording appends the expected
records. -/
theorem c9_variant_witness :
    ((_recordTxTraceAsync nbAllOk constants.NEW_CONTRACT (some "0xcreation") "0xt"
        w0).2).traceInfos =
      w0.traceInfos ++
        expectedTraceInfos nbAllOk constants.NEW_CONTRACT (some "0xcreation") "0xt"
          (nbAllOk.extract (nbAllOk.traceLogs "0xt") constants.NEW_CONTRACT) :=
  c9_variant_selection nbAllOk constants.NEW_CONTRACT (some "0xcreation") "0xt" w0 rfl rfl
    (fun _ => rfl)

/-- Claim C10: a freshly constructed `TraceCollectionSubprovider` is already
enabled — before `start()` is ever called, `handleRequest` run on the stored
state classifies exactly as in the enabled state — and `stop()` followed by
`start()` restores that behaviour. -/
theorem c10_enabled_from_construction {α : Type} (defaultFromAddress : String)
    (config : TraceCollectionSubproviderConfig) (s : TraceCollectionSubprovider)
    (payload : JSONRPCRequestPayload α) :
    (TraceCollectionSubprovider.new defaultFromAddress config)._isEnabled = true ∧
    handleRequest (TraceCollectionSubprovider.new defaultFromAddress config)._isEnabled
        (TraceCollectionSubprovider.new defaultFromAddress config)._config payload =
      handleRequest true config payload ∧
    (s.stop.start)._isEnabled = true ∧
    handleRequest (s.stop.start)._isEnabled (s.stop.start)._config payload =
      handleRequest true s._config payload :=
  ⟨rfl, rfl, rfl, rfl⟩
